/-
Verification of the synthetic-asset pool (src/defi/synthetics/src/lib.rs).

The pool lets users stake SNX collateral, mint synthetic tokens against it,
and burn them again.  Scrypto's `Decimal` (a signed fixed-point number with
18 decimal places whose arithmetic truncates toward zero and panics on
division by zero) is embedded as `Int` counting atto-units (multiples of
10^-18), with `dMul`/`dDiv` as the truncating product and quotient.
On-ledger panics abort the whole transaction, so every operation is a
function `SyntheticPool → … → Except Err (α × SyntheticPool)`: an `error`
result carries no successor state, mirroring atomic rollback.
`KeyValueStore`/`HashMap` state is embedded as association lists, and
the external price oracle / resource-manager supplies as further fields
of the pool state.
-/
import Mathlib

/-- Atto-unit scale of Scrypto's `Decimal` (18 decimal places). -/
def DEC : Int := 10 ^ 18

/-- Truncating fixed-point product, as in Scrypto `Decimal * Decimal`. -/
def dMul (a b : Int) : Int := (a * b).tdiv DEC

/-- Truncating fixed-point quotient, as in Scrypto `Decimal / Decimal`.
Callers must ensure `b ≠ 0`; `dDivE` wraps the zero check. -/
def dDiv (a b : Int) : Int := (a * DEC).tdiv b

/-- Integer `n` as a fixed-point decimal value, as in `dec!`. -/
def dec (n : Int) : Int := n * DEC

/-- Panics that can abort one of the pool's transactions. -/
inductive Err where
  | userNotFound
  | unknownAsset
  | assetAlreadyExists
  | priceUnavailable
  | underCollateralized
  | insufficientFunds
  | invalidAmount
  | divisionByZero
  deriving DecidableEq, Repr

/-- Fixed-point division that models the `Decimal` division panic on a
zero divisor. -/
def dDivE (a b : Int) : Except Err Int :=
  if b = 0 then .error .divisionByZero else .ok (dDiv a b)

instance {ε α : Type} [DecidableEq ε] [DecidableEq α] :
    DecidableEq (Except ε α) := fun x y =>
  match x, y with
  | .ok a, .ok b =>
    if h : a = b then isTrue (by rw [h])
    else isFalse (by intro hc; cases hc; exact h rfl)
  | .ok _, .error _ => isFalse (by intro hc; cases hc)
  | .error _, .ok _ => isFalse (by intro hc; cases hc)
  | .error e, .error f =>
    if h : e = f then isTrue (by rw [h])
    else isFalse (by intro hc; cases hc; exact h rfl)

/-- A proof presented by a caller.  Besides the resource address it records
an amount and a validity flag, which `get_user_id` deliberately ignores
(the source calls `unsafe_skip_proof_validation`). -/
structure CallerProof where
  resource_address : Nat
  amount : Int
  valid : Bool
  deriving DecidableEq, Repr

/-- A bucket of fungible tokens: resource address and amount. -/
structure Bucket where
  resource_address : Nat
  amount : Int
  deriving DecidableEq, Repr

/-- Per-user state: the SNX vault and the global-debt-share vault,
each embedded as its balance. -/
structure User where
  snx : Int
  global_debt_share : Int
  deriving DecidableEq, Repr

def User.new : User := { snx := 0, global_debt_share := 0 }

/-- A registered synthetic token. -/
structure SyntheticToken where
  asset_symbol : String
  asset_address : Nat
  token_resource_address : Nat
  deriving DecidableEq, Repr

def SyntheticToken.new (asset_symbol : String) (asset_address : Nat)
    (token_resource_address : Nat) : SyntheticToken :=
  { asset_symbol := asset_symbol, asset_address := asset_address,
    token_resource_address := token_resource_address }

/-- Association-list lookup keyed by decidable equality. -/
def lookupKV {α β : Type} [DecidableEq α] : List (α × β) → α → Option β
  | [], _ => none
  | (k, v) :: rest, key => if k = key then some v else lookupKV rest key

/-- Update every entry of `key` in place (there is at most one in a
well-formed store). -/
def updateKV {α β : Type} [DecidableEq α] (l : List (α × β)) (key : α)
    (f : β → β) : List (α × β) :=
  l.map (fun p => if p.1 = key then (p.1, f p.2) else p)

/-- The state of the `SyntheticPool` component together with the external
state it reads: oracle prices and resource-manager total supplies. -/
structure SyntheticPool where
  /-- The collateralization ratio one has to maintain when minting. -/
  collateralization_threshold : Int
  /-- SNX resource address. -/
  snx_resource_address : Nat
  /-- USD resource address. -/
  usd_resource_address : Nat
  /-- Users, keyed by badge resource address. -/
  users : List (Nat × User)
  /-- Registered synthetics, keyed by asset symbol. -/
  synthetics : List (String × SyntheticToken)
  /-- Total supply of the global debt share resource. -/
  debt_share_supply : Int
  /-- Total supply of each synthetic token resource. -/
  token_supply : List (Nat × Int)
  /-- Oracle prices, keyed by (base, quote) resource addresses. -/
  oracle : List ((Nat × Nat) × Int)
  /-- Next fresh resource address the ledger will allocate. -/
  next_address : Nat
  deriving DecidableEq, Repr

/-- Circulating supply of a token resource (a fresh resource has supply 0). -/
def lookupTS (ts : List (Nat × Int)) (tok : Nat) : Int :=
  (lookupKV ts tok).getD 0

/-- Record a new total supply for a token resource. -/
def setTS (ts : List (Nat × Int)) (tok : Nat) (v : Int) : List (Nat × Int) :=
  (tok, v) :: ts

/-- `PriceOracle.get_price(base, quote)`. -/
def oracle_price (oracle : List ((Nat × Nat) × Int)) (base quote : Nat) :
    Option Int :=
  lookupKV oracle (base, quote)

/-- `get_asset_price`: a missing oracle price panics. -/
def get_asset_price (s : SyntheticPool) (asset_address : Nat) :
    Except Err Int :=
  match oracle_price s.oracle asset_address s.usd_resource_address with
  | some p => .ok p
  | none => .error .priceUnavailable

/-- `get_snx_price`. -/
def get_snx_price (s : SyntheticPool) : Except Err Int :=
  get_asset_price s s.snx_resource_address

/-- The loop body of `get_total_global_debt`, over an explicit list of
synthetics. -/
def total_debt (s : SyntheticPool) :
    List (String × SyntheticToken) → Except Err Int
  | [] => .ok 0
  | e :: rest => do
    let p ← get_asset_price s e.2.asset_address
    let t ← total_debt s rest
    .ok (dMul p (lookupTS s.token_supply e.2.token_resource_address) + t)

/-- `get_total_global_debt`: Σ price(asset) × total_supply(synth token). -/
def get_total_global_debt (s : SyntheticPool) : Except Err Int :=
  total_debt s s.synthetics

/-- `User::check_collateralization_ratio` (the solvency gate): passes when
the share supply or the user's share balance is zero, otherwise demands
`snx_amount * snx_price / (global_debt / supply * share_amount) ≥ threshold`,
with each `Decimal` operation truncating and division by zero panicking. -/
def check_collateralization (snx_amount share_amount snx_price global_debt
    supply threshold : Int) : Except Err Unit :=
  if supply = 0 ∨ share_amount = 0 then .ok ()
  else do
    let q ← dDivE global_debt supply
    let r ← dDivE (dMul snx_amount snx_price) (dMul q share_amount)
    if threshold ≤ r then .ok () else .error .underCollateralized

/-- `get_user_id`: proof validation is skipped; only the proof's resource
address is used. -/
def get_user_id (user_auth : CallerProof) : Nat :=
  user_auth.resource_address

/-- `get_user`: look the user up, optionally creating an empty account. -/
def get_user (s : SyntheticPool) (user_id : Nat) (create_if_missing : Bool) :
    Except Err (User × SyntheticPool) :=
  match lookupKV s.users user_id with
  | some u => .ok (u, s)
  | none =>
    if create_if_missing then
      .ok (User.new, { s with users := (user_id, User.new) :: s.users })
    else .error .userNotFound

/-- The `if global_debt.is_zero() { dec!("100") } else { new_debt /
(global_debt / total_supply) }` expression inside `mint`. -/
def compute_mint_shares (global_debt supply new_debt : Int) :
    Except Err Int :=
  if global_debt = 0 then .ok (dec 100)
  else do
    let f ← dDivE global_debt supply
    dDivE new_debt f

/-- `stake`: deposit SNX into the caller's account, creating it if absent. -/
def stake (s : SyntheticPool) (user_auth : CallerProof) (stake_in_snx : Bucket) :
    Except Err (Unit × SyntheticPool) := do
  let uid := get_user_id user_auth
  let (_, s₁) ← get_user s uid true
  if stake_in_snx.resource_address = s₁.snx_resource_address then
    .ok ((), { s₁ with users := (updateKV s₁.users uid
      (fun u => { u with snx := u.snx + stake_in_snx.amount })) })
  else .error .invalidAmount

/-- The state committed by a successful `unstake`. -/
def unstakeState (s : SyntheticPool) (uid : Nat) (amount : Int) :
    SyntheticPool :=
  { s with users := (updateKV s.users uid
      (fun u => { u with snx := u.snx - amount })) }

/-- `unstake`: withdraw SNX, then run the solvency gate on the
post-withdrawal balances. -/
def unstake (s : SyntheticPool) (user_auth : CallerProof) (amount : Int) :
    Except Err (Bucket × SyntheticPool) := do
  let uid := get_user_id user_auth
  let (usr, _) ← get_user s uid false
  if amount < 0 then .error .invalidAmount
  else if usr.snx < amount then .error .insufficientFunds
  else do
    let psnx ← get_snx_price s
    let d ← get_total_global_debt s
    let _ ← check_collateralization (usr.snx - amount) usr.global_debt_share
      psnx d s.debt_share_supply s.collateralization_threshold
    .ok (⟨s.snx_resource_address, amount⟩, unstakeState s uid amount)

/-- The state after `mint` credits `sh` debt shares to `uid` and issues
`amount` fresh synthetic tokens of resource `tok` (before the final
solvency gate). -/
def mintState (s : SyntheticPool) (uid tok : Nat) (amount sh : Int) :
    SyntheticPool :=
  { s with
    users := (updateKV s.users uid
      (fun u => { u with global_debt_share := u.global_debt_share + sh })),
    debt_share_supply := s.debt_share_supply + sh,
    token_supply := (setTS s.token_supply tok
      (lookupTS s.token_supply tok + amount)) }

/-- `mint`: mint debt shares per `compute_mint_shares`, mint `amount` of the
synthetic token, then run the solvency gate on the post-mint state. -/
def mint (s : SyntheticPool) (user_auth : CallerProof) (amount : Int)
    (symbol : String) : Except Err (Bucket × SyntheticPool) := do
  let uid := get_user_id user_auth
  let (usr, _) ← get_user s uid false
  match lookupKV s.synthetics symbol with
  | none => .error .unknownAsset
  | some synth => do
    let global_debt ← get_total_global_debt s
    let p ← get_asset_price s synth.asset_address
    let new_debt := dMul p amount
    let sh ← compute_mint_shares global_debt s.debt_share_supply new_debt
    if sh < 0 then .error .invalidAmount
    else if amount < 0 then .error .invalidAmount
    else do
      let s₁ := mintState s uid synth.token_resource_address amount sh
      let psnx ← get_snx_price s₁
      let d ← get_total_global_debt s₁
      let _ ← check_collateralization usr.snx (usr.global_debt_share + sh)
        psnx d s₁.debt_share_supply s₁.collateralization_threshold
      .ok (⟨synth.token_resource_address, amount⟩, s₁)

/-- Find the synthetic whose token resource address matches the bucket. -/
def findSynth : List (String × SyntheticToken) → Nat → Option SyntheticToken
  | [], _ => none
  | e :: rest, tok =>
    if e.2.token_resource_address = tok then some e.2 else findSynth rest tok

/-- The state committed by a successful `burn`: `sh` debt shares of `uid`
and `amount` tokens of resource `tok` are destroyed. -/
def burnState (s : SyntheticPool) (uid tok : Nat) (amount sh : Int) :
    SyntheticPool :=
  { s with
    users := (updateKV s.users uid
      (fun u => { u with global_debt_share := u.global_debt_share - sh })),
    debt_share_supply := s.debt_share_supply - sh,
    token_supply := (setTS s.token_supply tok
      (lookupTS s.token_supply tok - amount)) }

/-- `burn`: burn debt shares proportional to the value of the returned
synthetic tokens, then burn the tokens. -/
def burn (s : SyntheticPool) (user_auth : CallerProof) (bucket : Bucket) :
    Except Err (Unit × SyntheticPool) := do
  let uid := get_user_id user_auth
  let (usr, _) ← get_user s uid false
  match findSynth s.synthetics bucket.resource_address with
  | none => .error .unknownAsset
  | some synth => do
    let global_debt ← get_total_global_debt s
    let p ← get_asset_price s synth.asset_address
    let debt_to_remove := dMul p bucket.amount
    let sh ← dDivE (dMul s.debt_share_supply debt_to_remove) global_debt
    if sh < 0 then .error .invalidAmount
    else if usr.global_debt_share < sh then .error .insufficientFunds
    else .ok ((), burnState s uid bucket.resource_address bucket.amount sh)

/-- `add_synthetic_token`: register a synthetic, allocating a fresh token
resource; duplicate symbols panic. -/
def add_synthetic_token (s : SyntheticPool) (asset_symbol : String)
    (asset_address : Nat) : Except Err (Nat × SyntheticPool) :=
  match lookupKV s.synthetics asset_symbol with
  | some _ => .error .assetAlreadyExists
  | none =>
    let tok := s.next_address
    .ok (tok, { s with
      synthetics := (asset_symbol,
        SyntheticToken.new asset_symbol asset_address tok) :: s.synthetics,
      next_address := s.next_address + 1 })

/-- `get_user_summary`: read-only report (the data interpolated into the
format string). -/
def get_user_summary (s : SyntheticPool) (user_id : Nat) :
    Except Err ((Int × Int × Int × Int × Int) × SyntheticPool) := do
  let (usr, _) ← get_user s user_id false
  let psnx ← get_snx_price s
  let d ← get_total_global_debt s
  .ok ((usr.snx, psnx, d, usr.global_debt_share, s.debt_share_supply), s)

/-- `new_user`: mint a fresh user badge; the pool's own fields are
untouched. -/
def new_user (s : SyntheticPool) : Except Err (Bucket × SyntheticPool) :=
  .ok (⟨s.next_address, 1⟩, { s with next_address := s.next_address + 1 })

/-- `instantiate_pool`: fresh pool with no users, no synthetics and zero
debt-share supply.  The oracle table is the external oracle's state. -/
def instantiate_pool (oracle : List ((Nat × Nat) × Int))
    (snx_token_address usd_token_address : Nat)
    (collateralization_threshold : Int) (first_free_address : Nat) :
    SyntheticPool :=
  { collateralization_threshold := collateralization_threshold,
    snx_resource_address := snx_token_address,
    usd_resource_address := usd_token_address,
    users := [], synthetics := [], debt_share_supply := 0,
    token_supply := [], oracle := oracle, next_address := first_free_address }

/-- One public operation of the pool, including external oracle price
updates between calls. -/
inductive Op where
  | stake (user_auth : CallerProof) (bucket : Bucket)
  | unstake (user_auth : CallerProof) (amount : Int)
  | mint (user_auth : CallerProof) (amount : Int) (symbol : String)
  | burn (user_auth : CallerProof) (bucket : Bucket)
  | add_synthetic_token (asset_symbol : String) (asset_address : Nat)
  | get_user_summary (user_id : Nat)
  | new_user
  | update_price (base quote : Nat) (price : Int)
  deriving DecidableEq, Repr

/-- Run one operation as a transaction: a panic aborts atomically, leaving
the state unchanged. -/
def step (s : SyntheticPool) (op : Op) : SyntheticPool :=
  match op with
  | .stake pf b => match stake s pf b with | .ok (_, s') => s' | .error _ => s
  | .unstake pf a => match unstake s pf a with | .ok (_, s') => s' | .error _ => s
  | .mint pf a sym => match mint s pf a sym with | .ok (_, s') => s' | .error _ => s
  | .burn pf b => match burn s pf b with | .ok (_, s') => s' | .error _ => s
  | .add_synthetic_token sym a =>
    match add_synthetic_token s sym a with | .ok (_, s') => s' | .error _ => s
  | .get_user_summary uid =>
    match get_user_summary s uid with | .ok (_, s') => s' | .error _ => s
  | .new_user => match new_user s with | .ok (_, s') => s' | .error _ => s
  | .update_price base quote price =>
    { s with oracle := ((base, quote), price) :: s.oracle }

/-- Run a sequence of operations. -/
def run (s : SyntheticPool) (ops : List Op) : SyntheticPool :=
  ops.foldl step s

/-- Sum of all users' debt-share balances. -/
def sumShares (users : List (Nat × User)) : Int :=
  (users.map (fun p => p.2.global_debt_share)).sum

/-- Every oracle price of the state is nonnegative. -/
def NonnegPrices (s : SyntheticPool) : Prop := ∀ e ∈ s.oracle, 0 ≤ e.2

/-- Every recorded token supply of the state is nonnegative. -/
def NonnegSupplies (s : SyntheticPool) : Prop := ∀ e ∈ s.token_supply, 0 ≤ e.2

/-- The ledger invariant of the debt-share resource: the user store has
unique keys and the total share supply equals the sum of all users'
debt-share balances. -/
def UsersInv (s : SyntheticPool) : Prop :=
  (s.users.map Prod.fst).Nodup ∧ s.debt_share_supply = sumShares s.users


/-! ### Concrete states used as counterexamples and witnesses

All use SNX resource address 5, USD address 6, a synthetic "A" with
underlying asset address 10 and token resource address 11 (and, where a
second synthetic is needed, "B" with asset 12 and token 13).  The caller
badge resource address is 1. -/

def exProof : CallerProof := { resource_address := 1, amount := 1, valid := true }

/-- State refuting C1's operand order: share supply 3, user owns all 3
shares, global debt 1 (synthetic "A" priced 1.0 with supply 1.0),
threshold 1 + 10^-18. -/
def cx1State : SyntheticPool :=
  { collateralization_threshold := dec 1 + 1,
    snx_resource_address := 5, usd_resource_address := 6,
    users := [(1, { snx := dec 2, global_debt_share := dec 3 })],
    synthetics := [("A", SyntheticToken.new "A" 10 11)],
    debt_share_supply := dec 3,
    token_supply := [(11, dec 1)],
    oracle := [((10, 6), dec 1), ((5, 6), dec 1)],
    next_address := 20 }

/-- State refuting C2's formula: share supply 3, global debt 1, minting
value 1 yields 3 + 3·10^-18 shares instead of `V·S/D = 3`. -/
def cx2State : SyntheticPool :=
  { cx1State with
    collateralization_threshold := dec 1,
    users := [(1, { snx := dec 1000000, global_debt_share := dec 3 })] }

/-- State refuting C4's branch condition: share supply 50 is nonzero, but
the recomputed global debt is 0 ("A" has supply 0, "B" has price 0), so
the bootstrap branch is taken. -/
def cx4State : SyntheticPool :=
  { collateralization_threshold := dec 1,
    snx_resource_address := 5, usd_resource_address := 6,
    users := [(1, { snx := dec 1000000, global_debt_share := dec 50 })],
    synthetics := [("A", SyntheticToken.new "A" 10 11),
                   ("B", SyntheticToken.new "B" 12 13)],
    debt_share_supply := dec 50,
    token_supply := [(11, 0), (13, dec 10)],
    oracle := [((10, 6), dec 2), ((12, 6), 0), ((5, 6), dec 1)],
    next_address := 20 }

/-- Solvent running state: user staked 1000 SNX (price 1.0), owns all
100 debt shares, 300 synthetic "A" circulate at price 2.0 (global debt
600), threshold 1.5. -/
def exRunState : SyntheticPool :=
  { collateralization_threshold := 3 * DEC / 2,
    snx_resource_address := 5, usd_resource_address := 6,
    users := [(1, { snx := dec 1000, global_debt_share := dec 100 })],
    synthetics := [("A", SyntheticToken.new "A" 10 11)],
    debt_share_supply := dec 100,
    token_supply := [(11, dec 300)],
    oracle := [((10, 6), dec 2), ((5, 6), dec 1)],
    next_address := 20 }

/-- A user with zero debt shares and 1000 SNX staked, for the zero-debt
exemption witness. -/
def exZeroDebtState : SyntheticPool :=
  { exRunState with
    users := [(1, { snx := dec 1000, global_debt_share := 0 })],
    debt_share_supply := 0,
    token_supply := [(11, 0)] }

/-- Fresh-pool bootstrap state: one synthetic registered, user staked,
nothing minted yet. -/
def exBootState : SyntheticPool :=
  { exRunState with
    users := [(1, { snx := dec 1000, global_debt_share := 0 })],
    debt_share_supply := 0,
    token_supply := [(11, 0)] }

/-- State whose oracle lacks the SNX/USD price. -/
def exNoPriceState : SyntheticPool :=
  { exRunState with oracle := [((10, 6), dec 2)] }

/-! ### Arithmetic of truncating fixed-point operations -/

theorem DEC_pos : (0 : Int) < DEC := by norm_num [DEC]

theorem dMul_eq_ediv {a b : Int} (ha : 0 ≤ a) (hb : 0 ≤ b) :
    dMul a b = a * b / DEC :=
  Int.tdiv_eq_ediv (mul_nonneg ha hb) (le_of_lt DEC_pos)

theorem dDiv_eq_ediv {a b : Int} (ha : 0 ≤ a) (hb : 0 ≤ b) :
    dDiv a b = a * DEC / b :=
  Int.tdiv_eq_ediv (mul_nonneg ha (le_of_lt DEC_pos)) hb

theorem dMul_nonneg {a b : Int} (ha : 0 ≤ a) (hb : 0 ≤ b) : 0 ≤ dMul a b :=
  Int.tdiv_nonneg (mul_nonneg ha hb) (le_of_lt DEC_pos)

theorem dDiv_nonneg {a b : Int} (ha : 0 ≤ a) (hb : 0 ≤ b) : 0 ≤ dDiv a b :=
  Int.tdiv_nonneg (mul_nonneg ha (le_of_lt DEC_pos)) hb

theorem ediv_antitone {a c d : Int} (ha : 0 ≤ a) (hc : 0 < c) (hcd : c ≤ d) :
    a / d ≤ a / c := by
  have hd : 0 < d := lt_of_lt_of_le hc hcd
  rw [Int.le_ediv_iff_mul_le hc]
  calc a / d * c ≤ a / d * d :=
        mul_le_mul_of_nonneg_left hcd (Int.ediv_nonneg ha (le_of_lt hd))
    _ ≤ a := Int.ediv_mul_le a (ne_of_gt hd)

theorem dMul_superadd {p a b : Int} (hp : 0 ≤ p) (ha : 0 ≤ a) (hb : 0 ≤ b) :
    dMul p a + dMul p b ≤ dMul p (a + b) := by
  rw [dMul_eq_ediv hp ha, dMul_eq_ediv hp hb, dMul_eq_ediv hp (add_nonneg ha hb),
    Int.le_ediv_iff_mul_le DEC_pos, add_mul, mul_add]
  have h1 : p * a / DEC * DEC ≤ p * a := Int.ediv_mul_le _ (ne_of_gt DEC_pos)
  have h2 : p * b / DEC * DEC ≤ p * b := Int.ediv_mul_le _ (ne_of_gt DEC_pos)
  linarith

theorem dMul_mono {a a' b b' : Int} (ha' : 0 ≤ a') (haa : a' ≤ a)
    (hb' : 0 ≤ b') (hbb : b' ≤ b) : dMul a' b' ≤ dMul a b := by
  have ha : 0 ≤ a := le_trans ha' haa
  rw [dMul_eq_ediv ha' hb', dMul_eq_ediv ha (le_trans hb' hbb)]
  exact Int.ediv_le_ediv DEC_pos (mul_le_mul haa hbb hb' ha)

theorem dDiv_antitone {a c d : Int} (ha : 0 ≤ a) (hc : 0 < c) (hcd : c ≤ d) :
    dDiv a d ≤ dDiv a c := by
  rw [dDiv_eq_ediv ha (le_of_lt hc),
    dDiv_eq_ediv ha (le_of_lt (lt_of_lt_of_le hc hcd))]
  exact ediv_antitone (mul_nonneg ha (le_of_lt DEC_pos)) hc hcd

theorem dDiv_mono {a b c : Int} (ha : 0 ≤ a) (hab : a ≤ b) (hc : 0 < c) :
    dDiv a c ≤ dDiv b c := by
  rw [dDiv_eq_ediv ha (le_of_lt hc), dDiv_eq_ediv (le_trans ha hab) (le_of_lt hc)]
  exact Int.ediv_le_ediv hc (mul_le_mul_of_nonneg_right hab (le_of_lt DEC_pos))

/-- `dDiv a b * b` never exceeds `a * DEC` (truncation loses value). -/
theorem dDiv_mul_le {a b : Int} (ha : 0 ≤ a) (hb : 0 < b) :
    dDiv a b * b ≤ a * DEC := by
  rw [dDiv_eq_ediv ha (le_of_lt hb)]
  exact Int.ediv_mul_le _ (ne_of_gt hb)

/-- `dMul a b * DEC` never exceeds `a * b`. -/
theorem dMul_mul_DEC_le {a b : Int} (ha : 0 ≤ a) (hb : 0 ≤ b) :
    dMul a b * DEC ≤ a * b := by
  rw [dMul_eq_ediv ha hb]
  exact Int.ediv_mul_le _ (ne_of_gt DEC_pos)

/-- Cross-multiplied comparison of share prices transfers to the truncated
quotients: if `D'/S' ≤ D/S` as exact fractions then also after `dDiv`. -/
theorem dDiv_le_of_cross {D S D' S' : Int} (hS : 0 < S) (hS' : 0 < S')
    (hD'nn : 0 ≤ D') (hcross : D' * S ≤ D * S') : dDiv D' S' ≤ dDiv D S := by
  have hDnn : 0 ≤ D := by
    rcases le_or_lt 0 D with h | h
    · exact h
    · exfalso
      have : D * S' < 0 := mul_neg_of_neg_of_pos h hS'
      have : D' * S < 0 := lt_of_le_of_lt hcross this
      exact absurd this (not_lt.mpr (mul_nonneg hD'nn (le_of_lt hS)))
  have h1 : dDiv D' S' * S' ≤ D' * DEC := dDiv_mul_le hD'nn hS'
  have h2 : dDiv D' S' * S * S' ≤ D * DEC * S' := by
    have h3 : dDiv D' S' * S' * S ≤ D' * DEC * S :=
      mul_le_mul_of_nonneg_right h1 (le_of_lt hS)
    have h4 : D' * S * DEC ≤ D * S' * DEC :=
      mul_le_mul_of_nonneg_right hcross (le_of_lt DEC_pos)
    nlinarith
  have h5 : dDiv D' S' * S ≤ D * DEC := le_of_mul_le_mul_right h2 hS'
  rw [dDiv_eq_ediv hDnn (le_of_lt hS), Int.le_ediv_iff_mul_le hS]
  exact h5

/-- For the shares burned `sh = dDiv (dMul S v) D`: scaled back up they
never exceed the exact proportion `S·v/D`. -/
theorem burn_shares_bound {S v D sh : Int} (hS : 0 ≤ S) (hv : 0 ≤ v)
    (hD : 0 < D) (hsh : sh = dDiv (dMul S v) D) : sh * D ≤ S * v := by
  have h1 : sh * D ≤ dMul S v * DEC := by
    rw [hsh]; exact dDiv_mul_le (dMul_nonneg hS hv) hD
  exact le_trans h1 (dMul_mul_DEC_le hS hv)

/-- For the shares minted `s₁ = dDiv V f`, where `f = dDiv D S` is the
truncated share price: if the recomputed debt grows by at least `V`,
the truncated share price cannot drop. -/
theorem mint_share_price_mono {D S V D' f s₁ : Int} (hS : 0 < S) (hD : 0 ≤ D)
    (hV : 0 ≤ V) (hf : f = dDiv D S) (hfpos : 0 < f) (hs₁ : s₁ = dDiv V f)
    (hD' : D + V ≤ D') : f ≤ dDiv D' (S + s₁) := by
  have hs₁nn : 0 ≤ s₁ := hs₁ ▸ dDiv_nonneg hV (le_of_lt hfpos)
  have hD'nn : 0 ≤ D' := le_trans (add_nonneg hD hV) hD'
  have hSpos' : 0 < S + s₁ := lt_of_lt_of_le hS (le_add_of_nonneg_right hs₁nn)
  have hfS : f * S ≤ D * DEC := by
    rw [hf]; exact dDiv_mul_le hD hS
  have hfs₁ : f * s₁ ≤ V * DEC := by
    rw [hs₁, mul_comm]; exact dDiv_mul_le hV hfpos
  rw [dDiv_eq_ediv hD'nn (le_of_lt hSpos'), Int.le_ediv_iff_mul_le hSpos']
  have hDd : (D + V) * DEC ≤ D' * DEC :=
    mul_le_mul_of_nonneg_right hD' (le_of_lt DEC_pos)
  calc f * (S + s₁) = f * S + f * s₁ := mul_add _ _ _
    _ ≤ D * DEC + V * DEC := add_le_add hfS hfs₁
    _ = (D + V) * DEC := (add_mul _ _ _).symm
    _ ≤ D' * DEC := hDd

/-! ### Association-list lemmas -/

theorem updateKV_cons_self {α β : Type} [DecidableEq α] (a : α) (b : β)
    (rest : List (α × β)) (f : β → β) :
    updateKV ((a, b) :: rest) a f = (a, f b) :: updateKV rest a f := by
  simp [updateKV]

theorem updateKV_cons_other {α β : Type} [DecidableEq α] {a k : α} (b : β)
    (rest : List (α × β)) (f : β → β) (h : a ≠ k) :
    updateKV ((a, b) :: rest) k f = (a, b) :: updateKV rest k f := by
  simp [updateKV, h]

theorem lookupKV_cons_self {α β : Type} [DecidableEq α] (a : α) (b : β)
    (rest : List (α × β)) : lookupKV ((a, b) :: rest) a = some b := by
  simp [lookupKV]

theorem lookupKV_cons_other {α β : Type} [DecidableEq α] {a k : α} (b : β)
    (rest : List (α × β)) (h : a ≠ k) :
    lookupKV ((a, b) :: rest) k = lookupKV rest k := by
  simp [lookupKV, h]

theorem lookupKV_update_self {α β : Type} [DecidableEq α] (l : List (α × β))
    (k : α) (f : β → β) :
    lookupKV (updateKV l k f) k = (lookupKV l k).map f := by
  induction l with
  | nil => rfl
  | cons e rest ih =>
    rcases e with ⟨a, b⟩
    by_cases h : a = k
    · subst h
      rw [updateKV_cons_self, lookupKV_cons_self, lookupKV_cons_self]
      rfl
    · rw [updateKV_cons_other b rest f h, lookupKV_cons_other _ _ h,
        lookupKV_cons_other _ _ h, ih]

theorem lookupKV_update_other {α β : Type} [DecidableEq α] (l : List (α × β))
    (k k' : α) (f : β → β) (hk : k ≠ k') :
    lookupKV (updateKV l k f) k' = lookupKV l k' := by
  induction l with
  | nil => rfl
  | cons e rest ih =>
    rcases e with ⟨a, b⟩
    by_cases h : a = k
    · subst h
      rw [updateKV_cons_self, lookupKV_cons_other _ _ hk.symm.symm,
        lookupKV_cons_other _ _ hk.symm.symm, ih]
    · by_cases h' : a = k'
      · subst h'
        rw [updateKV_cons_other b rest f h, lookupKV_cons_self,
          lookupKV_cons_self]
      · rw [updateKV_cons_other b rest f h, lookupKV_cons_other _ _ h',
          lookupKV_cons_other _ _ h', ih]

theorem updateKV_keys {α β : Type} [DecidableEq α] (l : List (α × β)) (k : α)
    (f : β → β) : (updateKV l k f).map Prod.fst = l.map Prod.fst := by
  induction l with
  | nil => rfl
  | cons e rest ih =>
    rcases e with ⟨a, b⟩
    by_cases h : a = k
    · subst h
      rw [updateKV_cons_self, List.map_cons, List.map_cons, ih]
    · rw [updateKV_cons_other b rest f h, List.map_cons, List.map_cons, ih]

theorem lookupKV_eq_none_of_not_mem {α β : Type} [DecidableEq α]
    {l : List (α × β)} {k : α} (h : k ∉ l.map Prod.fst) :
    lookupKV l k = none := by
  induction l with
  | nil => rfl
  | cons e rest ih =>
    rcases e with ⟨a, b⟩
    simp only [List.map_cons, List.mem_cons] at h
    push_neg at h
    rw [lookupKV_cons_other _ _ (Ne.symm h.1), ih h.2]

theorem not_mem_of_lookupKV_eq_none {α β : Type} [DecidableEq α]
    {l : List (α × β)} {k : α} (h : lookupKV l k = none) :
    k ∉ l.map Prod.fst := by
  induction l with
  | nil => simp
  | cons e rest ih =>
    rcases e with ⟨a, b⟩
    by_cases he : a = k
    · subst he
      rw [lookupKV_cons_self] at h
      exact absurd h (by simp)
    · rw [lookupKV_cons_other _ _ he] at h
      simp only [List.map_cons, List.mem_cons]
      push_neg
      exact ⟨Ne.symm he, ih h⟩

theorem updateKV_of_not_mem {α β : Type} [DecidableEq α]
    {l : List (α × β)} {k : α} (f : β → β) (h : k ∉ l.map Prod.fst) :
    updateKV l k f = l := by
  induction l with
  | nil => rfl
  | cons e rest ih =>
    rcases e with ⟨a, b⟩
    simp only [List.map_cons, List.mem_cons] at h
    push_neg at h
    rw [updateKV_cons_other b rest f (Ne.symm h.1), ih h.2]

theorem sumShares_cons (e : Nat × User) (rest : List (Nat × User)) :
    sumShares (e :: rest) = e.2.global_debt_share + sumShares rest := by
  simp [sumShares]

theorem sumShares_update {l : List (Nat × User)} {k : Nat} {usr : User}
    (f : User → User) (hnd : (l.map Prod.fst).Nodup)
    (h : lookupKV l k = some usr) :
    sumShares (updateKV l k f) =
      sumShares l - usr.global_debt_share + (f usr).global_debt_share := by
  induction l with
  | nil => simp [lookupKV] at h
  | cons e rest ih =>
    rcases e with ⟨a, b⟩
    simp only [List.map_cons, List.nodup_cons] at hnd
    by_cases he : a = k
    · subst he
      rw [lookupKV_cons_self, Option.some.injEq] at h
      subst h
      rw [updateKV_cons_self, updateKV_of_not_mem f hnd.1,
        sumShares_cons, sumShares_cons]
      ring
    · rw [lookupKV_cons_other _ _ he] at h
      rw [updateKV_cons_other b rest f he, sumShares_cons, sumShares_cons,
        ih hnd.2 h]
      ring

theorem sumShares_update_keep {l : List (Nat × User)} {k : Nat}
    (f : User → User)
    (hf : ∀ u, (f u).global_debt_share = u.global_debt_share) :
    sumShares (updateKV l k f) = sumShares l := by
  induction l with
  | nil => rfl
  | cons e rest ih =>
    rcases e with ⟨a, b⟩
    by_cases he : a = k
    · subst he
      rw [updateKV_cons_self, sumShares_cons, sumShares_cons, ih, hf]
    · rw [updateKV_cons_other b rest f he, sumShares_cons, sumShares_cons, ih]

/-! ### Claim C7: zero-debt exemption -/

/-- C7: the collateralization check always passes when the total debt-share
supply is zero or the account's debt-share balance is zero; and an account
holding zero debt shares can unstake (fully withdraw) all of its collateral
successfully, for every collateral price and every global debt value. -/
theorem claim_C7_zero_debt_exemption (s : SyntheticPool) (pf : CallerProof)
    (usr : User) (psnx gd snx_amt share_amt price debt supply threshold : Int)
    (hpass : supply = 0 ∨ share_amt = 0)
    (hl : lookupKV s.users pf.resource_address = some usr)
    (hz : usr.global_debt_share = 0) (hnn : 0 ≤ usr.snx)
    (hp : get_snx_price s = .ok psnx)
    (hd : get_total_global_debt s = .ok gd) :
    check_collateralization snx_amt share_amt price debt supply threshold
      = .ok () ∧
    unstake s pf usr.snx = .ok (⟨s.snx_resource_address, usr.snx⟩,
      { s with users := (updateKV s.users pf.resource_address
          (fun u => { u with snx := u.snx - usr.snx })) }) := by
  constructor
  · simp [check_collateralization, hpass]
  · simp only [unstake, get_user_id, get_user, hl, hp, hd, hz, bind,
      Except.bind, check_collateralization, lt_irrefl, if_false,
      not_lt.mpr hnn]
    simp [not_lt.mpr hnn, unstakeState]

/-- Witness for C7 at a concrete state: the zero-debt user withdraws all
1000 staked SNX. -/
theorem claim_C7_witness :
    (lookupKV exZeroDebtState.users exProof.resource_address =
      some { snx := dec 1000, global_debt_share := 0 }) ∧
    unstake exZeroDebtState exProof (dec 1000) =
      .ok (⟨5, dec 1000⟩, { exZeroDebtState with
        users := [(1, { snx := 0, global_debt_share := 0 })] }) := by
  refine ⟨by decide, ?_⟩
  have h := (claim_C7_zero_debt_exemption exZeroDebtState exProof
    { snx := dec 1000, global_debt_share := 0 } (dec 1) 0 0 0 0 0 0 0
    (Or.inl rfl) (by decide) rfl (by decide) (by decide) (by decide)).2
  rw [show (dec 1000 : Int) =
    ({ snx := dec 1000, global_debt_share := 0 } : User).snx from rfl, h]
  decide

/-! ### Claim C8: missing oracle price is fatal -/

/-- C8: an operation requesting a price the oracle does not have aborts
with `priceUnavailable` (and, being an `error`, commits no state); a price
the engine does use always comes verbatim from the oracle, never from a
default. -/
theorem claim_C8_missing_price_fatal (s : SyntheticPool) (a : Nat)
    (pf : CallerProof) (usr : User) (amt : Int)
    (hnone : oracle_price s.oracle a s.usd_resource_address = none)
    (hl : lookupKV s.users pf.resource_address = some usr)
    (hnn : 0 ≤ amt) (hle : amt ≤ usr.snx)
    (ha : a = s.snx_resource_address) :
    get_asset_price s a = .error .priceUnavailable ∧
    (∀ b q, get_asset_price s b = .ok q →
      oracle_price s.oracle b s.usd_resource_address = some q) ∧
    unstake s pf amt = .error .priceUnavailable := by
  refine ⟨by simp [get_asset_price, hnone], ?_, ?_⟩
  · intro b q hq
    unfold get_asset_price at hq
    cases hob : oracle_price s.oracle b s.usd_resource_address with
    | none => rw [hob] at hq; cases hq
    | some p => rw [hob] at hq; cases hq; rfl
  · subst ha
    simp only [unstake, get_user_id, get_user, hl, bind, Except.bind,
      get_snx_price, get_asset_price, hnone, not_lt.mpr hnn, not_lt.mpr hle]
    simp [not_lt.mpr hnn, not_lt.mpr hle]

/-- Witness for C8: the oracle of `exNoPriceState` has no SNX/USD price, so
a withdrawal aborts with `priceUnavailable`. -/
theorem claim_C8_witness :
    (oracle_price exNoPriceState.oracle 5 exNoPriceState.usd_resource_address
      = none) ∧
    unstake exNoPriceState exProof (dec 1) = .error .priceUnavailable :=
  ⟨by decide, (claim_C8_missing_price_fatal exNoPriceState 5 exProof
    { snx := dec 1000, global_debt_share := dec 100 } (dec 1)
    (by decide) (by decide) (by decide) (by decide) rfl).2.2⟩

/-! ### Claim C9: zero global debt with live shares divides by zero -/

/-- C9: when the share supply and the account's share balance are both
nonzero but the recomputed global debt value is zero, the denominator
`global_debt / supply * share_amount` of the collateralization check is
zero, so the check — and the enclosing operation — fails with the
division-by-zero panic instead of passing as trivially solvent. -/
theorem claim_C9_zero_debt_divides_by_zero (s : SyntheticPool)
    (pf : CallerProof) (usr : User)
    (psnx amt snx_amt share_amt price supply threshold : Int)
    (hS : supply ≠ 0) (hb : share_amt ≠ 0)
    (hl : lookupKV s.users pf.resource_address = some usr)
    (hz : usr.global_debt_share ≠ 0) (hS' : s.debt_share_supply ≠ 0)
    (hnn : 0 ≤ amt) (hle : amt ≤ usr.snx)
    (hp : get_snx_price s = .ok psnx)
    (hd : get_total_global_debt s = .ok 0) :
    check_collateralization snx_amt share_amt price 0 supply threshold
      = .error .divisionByZero ∧
    unstake s pf amt = .error .divisionByZero := by
  have hchk : ∀ sa sh pr sup t : Int, sup ≠ 0 → sh ≠ 0 →
      check_collateralization sa sh pr 0 sup t = .error .divisionByZero := by
    intro sa sh pr sup t hsup hsh
    simp [check_collateralization, hsup, hsh, dDivE, dDiv, dMul, bind,
      Except.bind, Int.zero_tdiv]
  constructor
  · exact hchk snx_amt share_amt price supply threshold hS hb
  · simp only [unstake, get_user_id, get_user, hl, bind, Except.bind, hp, hd,
      not_lt.mpr hnn, not_lt.mpr hle]
    simp only [not_lt.mpr hnn, not_lt.mpr hle, if_false]
    rw [hchk (usr.snx - amt) usr.global_debt_share psnx s.debt_share_supply
      s.collateralization_threshold hS' hz]

/-- Witness for C9 at `cx4State`, whose recomputed global debt is zero
while 50 debt shares circulate: a withdrawal of 1 SNX aborts with the
division-by-zero panic. -/
theorem claim_C9_witness :
    get_total_global_debt cx4State = .ok 0 ∧
    unstake cx4State exProof (dec 1) = .error .divisionByZero :=
  ⟨by decide, (claim_C9_zero_debt_divides_by_zero cx4State exProof
    { snx := dec 1000000, global_debt_share := dec 50 }
    (dec 1) (dec 1) 1 1 1 1 1 (by decide) (by decide) (by decide) (by decide)
    (by decide) (by decide) (by decide) (by decide) (by decide)).2⟩

/-! ### Claim C10: operations depend on the proof only through its
resource address -/

/-- C10: `get_user_id` returns the proof's resource address with validation
skipped, and each public operation taking a proof gives identical results
for any two proofs sharing a resource address, whatever their amounts or
validity. -/
theorem claim_C10_proof_identity_only (s : SyntheticPool)
    (p₁ p₂ : CallerProof) (h : p₁.resource_address = p₂.resource_address)
    (b : Bucket) (amt : Int) (sym : String) :
    get_user_id p₁ = p₁.resource_address ∧
    stake s p₁ b = stake s p₂ b ∧
    unstake s p₁ amt = unstake s p₂ amt ∧
    mint s p₁ amt sym = mint s p₂ amt sym ∧
    burn s p₁ b = burn s p₂ b := by
  refine ⟨rfl, ?_, ?_, ?_, ?_⟩ <;>
    simp only [stake, unstake, mint, burn, get_user_id, h]

/-- Witness for C10: two proofs with equal resource address but different
amount and validity stake identically. -/
theorem claim_C10_witness :
    (({ resource_address := 1, amount := 5, valid := true } :
        CallerProof).resource_address =
      ({ resource_address := 1, amount := 99, valid := false } :
        CallerProof).resource_address) ∧
    stake exRunState { resource_address := 1, amount := 5, valid := true }
        ⟨5, dec 10⟩ =
      stake exRunState { resource_address := 1, amount := 99, valid := false }
        ⟨5, dec 10⟩ :=
  ⟨rfl, (claim_C10_proof_identity_only exRunState _ _ rfl ⟨5, dec 10⟩ 0
    "").2.1⟩

/-! ### Counterexamples to the claims C1, C2 and C4 as stated -/

/-- C1 counterexample.  In `cx1State` the user withdraws 1 SNX, leaving
collateral value 1.0 against all 3 debt shares of a pool with global debt
1.0 and threshold 1 + 10^-18.  The claim's ratio
`(collateral × price) / (global_debt × shares / supply)` evaluates to
exactly 1.0 < threshold, and supply and balance are nonzero, so the claim
demands rejection with `Undercollateralized` and unchanged balances — but
the code computes `(collateral × price) / (global_debt / supply × shares)`,
whose truncated denominator is smaller (0.999999999999999999), giving
level 1 + 10^-18 ≥ threshold: the unstake succeeds and the balance
changes. -/
theorem claim_C1_counterexample :
    dDiv (dMul (dec 1) (dec 1)) (dDiv (dMul (dec 1) (dec 3)) (dec 3))
      < cx1State.collateralization_threshold ∧
    cx1State.debt_share_supply ≠ 0 ∧
    ({ snx := dec 2, global_debt_share := dec 3 } : User).global_debt_share
      ≠ 0 ∧
    unstake cx1State exProof (dec 1) = .ok (⟨5, dec 1⟩,
      { cx1State with
        users := [(1, { snx := dec 1, global_debt_share := dec 3 })] }) := by
  decide

/-- C2 counterexample.  In `cx2State` (supply `S` = 3, global debt `D` = 1)
a mint of value `V` = 1 credits `V / (D / S)` = 3.000000000000000003 debt
shares, while the claimed formula `V × S / D` with the burn-style operand
order gives exactly 3: the two truncation orders disagree, so the minted
amount is not `V × S / D`. -/
theorem claim_C2_counterexample :
    ((mint cx2State exProof (dec 1) "A").map
      (fun r => r.2.debt_share_supply - cx2State.debt_share_supply))
      = .ok 3000000000000000003 ∧
    dDiv (dMul (dMul (dec 1) (dec 1)) (dec 3)) (dec 1) = dec 3 ∧
    (3000000000000000003 : Int) ≠ dec 3 := by
  decide

/-- C4 counterexample.  In `cx4State` the debt-share supply is 50 ≠ 0, yet
the recomputed global debt is zero, so `mint` takes the bootstrap branch:
mints of the two different amounts 7 and 13 both credit exactly the fixed
100 shares.  The bootstrap branch is therefore not taken "exactly when the
total share supply is zero", and no proportional formula is applied despite
the nonzero supply. -/
theorem claim_C4_counterexample :
    cx4State.debt_share_supply ≠ 0 ∧
    get_total_global_debt cx4State = .ok 0 ∧
    ((mint cx4State exProof (dec 7) "A").map
      (fun r => r.2.debt_share_supply - cx4State.debt_share_supply))
      = .ok (dec 100) ∧
    ((mint cx4State exProof (dec 13) "A").map
      (fun r => r.2.debt_share_supply - cx4State.debt_share_supply))
      = .ok (dec 100) := by
  decide

/-! ### Price, supply and global-debt lemmas -/

theorem lookupKV_mem {α β : Type} [DecidableEq α] {l : List (α × β)} {k : α}
    {v : β} (h : lookupKV l k = some v) : (k, v) ∈ l := by
  induction l with
  | nil => cases h
  | cons e rest ih =>
    rcases e with ⟨a, b⟩
    by_cases he : a = k
    · subst he
      rw [lookupKV_cons_self, Option.some.injEq] at h
      subst h
      exact List.mem_cons_self _ _
    · rw [lookupKV_cons_other _ _ he] at h
      exact List.mem_cons_of_mem _ (ih h)

theorem get_asset_price_ok {s : SyntheticPool} {a : Nat} {p : Int} :
    get_asset_price s a = .ok p ↔
      oracle_price s.oracle a s.usd_resource_address = some p := by
  unfold get_asset_price
  cases h : oracle_price s.oracle a s.usd_resource_address <;> simp

theorem oracle_price_nonneg {s : SyntheticPool} {b q : Nat} {p : Int}
    (hNP : NonnegPrices s)
    (h : oracle_price s.oracle b q = some p) : 0 ≤ p :=
  hNP _ (lookupKV_mem h)

theorem lookupTS_nonneg {s : SyntheticPool} (hNS : NonnegSupplies s)
    (tok : Nat) : 0 ≤ lookupTS s.token_supply tok := by
  cases h : lookupKV s.token_supply tok with
  | none => simp [lookupTS, h]
  | some v =>
    have := hNS _ (lookupKV_mem h)
    simpa [lookupTS, h] using this

theorem lookupTS_setTS_self (ts : List (Nat × Int)) (tok : Nat) (x : Int) :
    lookupTS (setTS ts tok x) tok = x := by
  simp [lookupTS, setTS, lookupKV]

theorem lookupTS_setTS_other (ts : List (Nat × Int)) {tok t : Nat} (x : Int)
    (h : tok ≠ t) : lookupTS (setTS ts tok x) t = lookupTS ts t := by
  simp [lookupTS, setTS, lookupKV, h]

/-- `total_debt` only reads the oracle, the quote currency and the token
supplies of the listed synthetics. -/
theorem total_debt_congr {s s' : SyntheticPool}
    (ho : s'.oracle = s.oracle)
    (hu : s'.usd_resource_address = s.usd_resource_address)
    (l : List (String × SyntheticToken))
    (hts : ∀ e ∈ l, lookupTS s'.token_supply e.2.token_resource_address
      = lookupTS s.token_supply e.2.token_resource_address) :
    total_debt s' l = total_debt s l := by
  induction l with
  | nil => rfl
  | cons e rest ih =>
    have hhead : get_asset_price s' e.2.asset_address
        = get_asset_price s e.2.asset_address := by
      unfold get_asset_price
      rw [ho, hu]
    simp only [total_debt, hhead, bind, Except.bind]
    cases get_asset_price s e.2.asset_address with
    | error err => rfl
    | ok p =>
      rw [ih (fun x hx => hts x (List.mem_cons_of_mem _ hx))]
      cases total_debt s rest with
      | error err => rfl
      | ok t => rw [hts e (List.mem_cons_self _ _)]

/-- Exact effect on the recomputed global debt of changing one token's
supply, when the listed synthetics have pairwise-distinct token
resources. -/
theorem total_debt_setTS {s s' : SyntheticPool} {tok : Nat} {x : Int}
    (ho : s'.oracle = s.oracle)
    (hu : s'.usd_resource_address = s.usd_resource_address)
    (ht : s'.token_supply = setTS s.token_supply tok x)
    {l : List (String × SyntheticToken)}
    (hnd : (l.map (fun e => e.2.token_resource_address)).Nodup)
    {sym : String} {sy : SyntheticToken} (hmem : (sym, sy) ∈ l)
    (htok : sy.token_resource_address = tok)
    {D p : Int} (hD : total_debt s l = .ok D)
    (hp : oracle_price s.oracle sy.asset_address s.usd_resource_address
      = some p) :
    total_debt s' l
      = .ok (D - dMul p (lookupTS s.token_supply tok) + dMul p x) := by
  induction l generalizing D with
  | nil => cases hmem
  | cons e rest ih =>
    simp only [List.map_cons, List.nodup_cons] at hnd
    have hgp' : ∀ a q, get_asset_price s a = .ok q →
        get_asset_price s' a = .ok q := by
      intro a q hq
      rw [get_asset_price_ok] at hq ⊢
      rw [ho, hu]
      exact hq
    by_cases hhead : e.2.token_resource_address = tok
    · have hesy : e = (sym, sy) := by
        rcases List.mem_cons.mp hmem with h | h
        · exact h.symm
        · exfalso
          apply hnd.1
          rw [hhead]
          exact htok ▸ List.mem_map_of_mem _ h
      subst hesy
      simp only [total_debt, bind, Except.bind] at hD ⊢
      rw [show get_asset_price s sy.asset_address = .ok p from
        get_asset_price_ok.mpr hp] at hD
      rw [hgp' _ _ (get_asset_price_ok.mpr hp)]
      cases hrest : total_debt s rest with
      | error err => rw [hrest] at hD; cases hD
      | ok t₀ =>
        rw [hrest] at hD
        rw [Except.ok.injEq] at hD
        rw [total_debt_congr ho hu rest (fun e' he' => by
          rw [ht]
          refine lookupTS_setTS_other _ _ ?_
          intro hcon
          apply hnd.1
          show sy.token_resource_address ∈ _
          rw [htok.trans hcon]
          exact List.mem_map_of_mem _ he')]
        rw [hrest]
        rw [ht, htok, lookupTS_setTS_self]
        rw [Except.ok.injEq]
        rw [← hD, htok]
        ring
    · have hmem' : (sym, sy) ∈ rest := by
        rcases List.mem_cons.mp hmem with h | h
        · exfalso
          apply hhead
          subst h
          exact htok
        · exact h
      simp only [total_debt, bind, Except.bind] at hD ⊢
      cases hgp : get_asset_price s e.2.asset_address with
      | error err => rw [hgp] at hD; cases hD
      | ok pe =>
        rw [hgp] at hD
        rw [hgp' _ _ hgp]
        cases hrest : total_debt s rest with
        | error err => rw [hrest] at hD; cases hD
        | ok t₀ =>
          rw [hrest] at hD
          rw [Except.ok.injEq] at hD
          rw [ih hnd.2 hmem' hrest]
          rw [show lookupTS s'.token_supply e.2.token_resource_address
            = lookupTS s.token_supply e.2.token_resource_address from by
            rw [ht]
            exact lookupTS_setTS_other _ _ (fun hcon => hhead hcon.symm)]
          rw [Except.ok.injEq]
          rw [← hD]
          ring

/-- The recomputed global debt is nonnegative when prices and supplies
are. -/
theorem total_debt_nonneg {s : SyntheticPool}
    {l : List (String × SyntheticToken)} {D : Int}
    (hNP : NonnegPrices s) (hNS : NonnegSupplies s)
    (hD : total_debt s l = .ok D) : 0 ≤ D := by
  induction l generalizing D with
  | nil =>
    simp only [total_debt, Except.ok.injEq] at hD
    omega
  | cons e rest ih =>
    simp only [total_debt, bind, Except.bind] at hD
    cases hgp : get_asset_price s e.2.asset_address with
    | error err => rw [hgp] at hD; cases hD
    | ok p =>
      rw [hgp] at hD
      cases hrest : total_debt s rest with
      | error err => rw [hrest] at hD; cases hD
      | ok t₀ =>
        rw [hrest] at hD
        rw [Except.ok.injEq] at hD
        have hp : 0 ≤ p :=
          oracle_price_nonneg hNP (get_asset_price_ok.mp hgp)
        have hts := lookupTS_nonneg hNS e.2.token_resource_address
        have := dMul_nonneg hp hts
        have := ih hrest
        omega

/-! ### Characterizations of the operations -/

theorem get_asset_price_mintState (s : SyntheticPool) (uid tok : Nat)
    (amount sh : Int) (a : Nat) :
    get_asset_price (mintState s uid tok amount sh) a = get_asset_price s a :=
  rfl

theorem get_snx_price_mintState (s : SyntheticPool) (uid tok : Nat)
    (amount sh : Int) :
    get_snx_price (mintState s uid tok amount sh) = get_snx_price s := rfl

theorem mintState_supply (s : SyntheticPool) (uid tok : Nat)
    (amount sh : Int) :
    (mintState s uid tok amount sh).debt_share_supply
      = s.debt_share_supply + sh := rfl

theorem mintState_threshold (s : SyntheticPool) (uid tok : Nat)
    (amount sh : Int) :
    (mintState s uid tok amount sh).collateralization_threshold
      = s.collateralization_threshold := rfl

theorem burnState_supply (s : SyntheticPool) (uid tok : Nat)
    (amount sh : Int) :
    (burnState s uid tok amount sh).debt_share_supply
      = s.debt_share_supply - sh := rfl

/-- The collateralization check rejects with `underCollateralized` exactly
the live positions whose truncated level falls below the threshold (given
the truncated denominator is nonzero). -/
theorem check_collateralization_fail
    {snx_amt share_amt psnx gdv supply t : Int}
    (hS : supply ≠ 0) (hb : share_amt ≠ 0)
    (hden : dMul (dDiv gdv supply) share_amt ≠ 0)
    (hlt : dDiv (dMul snx_amt psnx) (dMul (dDiv gdv supply) share_amt) < t) :
    check_collateralization snx_amt share_amt psnx gdv supply t
      = .error .underCollateralized := by
  simp [check_collateralization, hS, hb, dDivE, hden, bind, Except.bind,
    not_le.mpr hlt]

/-- What `unstake` does once the user and the prices are resolved: it is
the collateralization check on the post-withdrawal balances, followed by
the committed withdrawal. -/
theorem unstake_eq {s : SyntheticPool} {pf : CallerProof} {usr : User}
    {amount psnx d : Int}
    (hl : lookupKV s.users pf.resource_address = some usr)
    (hnn : 0 ≤ amount) (hle : amount ≤ usr.snx)
    (hp : get_snx_price s = .ok psnx)
    (hd : get_total_global_debt s = .ok d) :
    unstake s pf amount =
      (check_collateralization (usr.snx - amount) usr.global_debt_share psnx
        d s.debt_share_supply s.collateralization_threshold).map
        (fun _ => (⟨s.snx_resource_address, amount⟩,
          unstakeState s pf.resource_address amount)) := by
  simp only [unstake, get_user_id, get_user, hl, bind, Except.bind, hp, hd,
    not_lt.mpr hnn, not_lt.mpr hle, if_false]
  cases check_collateralization (usr.snx - amount) usr.global_debt_share psnx
      d s.debt_share_supply s.collateralization_threshold with
  | error err => rfl
  | ok v => rfl

/-- What `mint` does once the user, the synthetic, the prices and the share
computation are resolved: it is the collateralization check on the
post-mint state, followed by the committed mint. -/
theorem mint_eq {s : SyntheticPool} {pf : CallerProof} {amount : Int}
    {symbol : String} {usr : User} {synth : SyntheticToken}
    {gd p sh psnx d₁ : Int}
    (hl : lookupKV s.users pf.resource_address = some usr)
    (hsym : lookupKV s.synthetics symbol = some synth)
    (hgd : get_total_global_debt s = .ok gd)
    (hp : get_asset_price s synth.asset_address = .ok p)
    (hsh : compute_mint_shares gd s.debt_share_supply (dMul p amount)
      = .ok sh)
    (hshnn : 0 ≤ sh) (hamt : 0 ≤ amount)
    (hpsnx : get_snx_price s = .ok psnx)
    (hd₁ : get_total_global_debt (mintState s pf.resource_address
      synth.token_resource_address amount sh) = .ok d₁) :
    mint s pf amount symbol =
      (check_collateralization usr.snx (usr.global_debt_share + sh) psnx d₁
        (s.debt_share_supply + sh) s.collateralization_threshold).map
        (fun _ => (⟨synth.token_resource_address, amount⟩,
          mintState s pf.resource_address synth.token_resource_address
            amount sh)) := by
  simp only [mint, get_user_id, get_user, hl, bind, Except.bind, hsym, hgd,
    hp, hsh, not_lt.mpr hshnn, not_lt.mpr hamt, if_false,
    get_snx_price_mintState, hpsnx, hd₁, mintState_supply,
    mintState_threshold]
  cases check_collateralization usr.snx (usr.global_debt_share + sh) psnx d₁
      (s.debt_share_supply + sh) s.collateralization_threshold with
  | error err => rfl
  | ok v => rfl

/-- What `burn` does once the user, the synthetic and the prices are
resolved: burn the proportional shares, or fail with `insufficientFunds`
when the account holds fewer shares. -/
theorem burn_eq {s : SyntheticPool} {pf : CallerProof} {bucket : Bucket}
    {usr : User} {synth : SyntheticToken} {gd p sh : Int}
    (hl : lookupKV s.users pf.resource_address = some usr)
    (hsy : findSynth s.synthetics bucket.resource_address = some synth)
    (hgd : get_total_global_debt s = .ok gd) (hgd0 : gd ≠ 0)
    (hp : get_asset_price s synth.asset_address = .ok p)
    (hsh : sh = dDiv (dMul s.debt_share_supply (dMul p bucket.amount)) gd)
    (hshnn : 0 ≤ sh) :
    burn s pf bucket =
      if usr.global_debt_share < sh then .error .insufficientFunds
      else .ok ((), burnState s pf.resource_address bucket.resource_address
        bucket.amount sh) := by
  simp only [burn, get_user_id, get_user, hl, bind, Except.bind, hsy, hgd,
    hp, dDivE, hgd0, if_false, ← hsh, not_lt.mpr hshnn]

/-! ### Claim C1 (amended): the solvency gate rejects with
`Undercollateralized` below threshold -/

/-- C1 (amended): for mint and unstake, if in the tentative post-operation
state the share supply and the account's share balance are nonzero and the
code's collateralization level
`(collateral × price) / ((global_debt / supply) × balance)` — the
denominator associated as in `check_collateralization_ratio`, truncating
at each step, and itself nonzero — is below the threshold, the operation
is rejected with `Undercollateralized`; the `error` result commits no
state, so every balance keeps its pre-operation value. -/
theorem claim_C1_solvency_gate (s : SyntheticPool) (pf : CallerProof)
    (usr : User) :
    (∀ amount psnx d : Int,
      lookupKV s.users pf.resource_address = some usr →
      0 ≤ amount → amount ≤ usr.snx →
      get_snx_price s = .ok psnx →
      get_total_global_debt s = .ok d →
      s.debt_share_supply ≠ 0 → usr.global_debt_share ≠ 0 →
      dMul (dDiv d s.debt_share_supply) usr.global_debt_share ≠ 0 →
      dDiv (dMul (usr.snx - amount) psnx)
          (dMul (dDiv d s.debt_share_supply) usr.global_debt_share)
        < s.collateralization_threshold →
      unstake s pf amount = .error .underCollateralized) ∧
    (∀ (amount : Int) (symbol : String) (synth : SyntheticToken)
        (gd p sh psnx d₁ : Int),
      lookupKV s.users pf.resource_address = some usr →
      lookupKV s.synthetics symbol = some synth →
      get_total_global_debt s = .ok gd →
      get_asset_price s synth.asset_address = .ok p →
      compute_mint_shares gd s.debt_share_supply (dMul p amount) = .ok sh →
      0 ≤ sh → 0 ≤ amount →
      get_snx_price s = .ok psnx →
      get_total_global_debt (mintState s pf.resource_address
        synth.token_resource_address amount sh) = .ok d₁ →
      s.debt_share_supply + sh ≠ 0 → usr.global_debt_share + sh ≠ 0 →
      dMul (dDiv d₁ (s.debt_share_supply + sh))
        (usr.global_debt_share + sh) ≠ 0 →
      dDiv (dMul usr.snx psnx)
          (dMul (dDiv d₁ (s.debt_share_supply + sh))
            (usr.global_debt_share + sh))
        < s.collateralization_threshold →
      mint s pf amount symbol = .error .underCollateralized) := by
  constructor
  · intro amount psnx d hl hnn hle hp hd hS hb hden hlt
    rw [unstake_eq hl hnn hle hp hd,
      check_collateralization_fail hS hb hden hlt]
    rfl
  · intro amount symbol synth gd p sh psnx d₁ hl hsym hgd hp hsh hshnn hamt
      hpsnx hd₁ hS hb hden hlt
    rw [mint_eq hl hsym hgd hp hsh hshnn hamt hpsnx hd₁,
      check_collateralization_fail hS hb hden hlt]
    rfl

/-- Witness for the amended C1 at `exRunState` (the spec §8 scenario):
withdrawing 500 of the 1000 staked SNX leaves level 10/6 × 1000/600 <
1.5, and minting 50 more synthetic "A" pushes the debt to 700 with level
1000/700 < 1.5; both operations abort with `Undercollateralized`. -/
theorem claim_C1_witness :
    (dDiv (dMul (dec 1000 - dec 500) (dec 1))
        (dMul (dDiv (dec 600) (dec 100)) (dec 100))
      < exRunState.collateralization_threshold) ∧
    unstake exRunState exProof (dec 500) = .error .underCollateralized ∧
    mint exRunState exProof (dec 50) "A" = .error .underCollateralized := by
  refine ⟨by decide, ?_, ?_⟩
  · exact (claim_C1_solvency_gate exRunState exProof
      { snx := dec 1000, global_debt_share := dec 100 }).1
      (dec 500) (dec 1) (dec 600) (by decide) (by decide) (by decide)
      (by decide) (by decide) (by decide) (by decide) (by decide) (by decide)
  · exact (claim_C1_solvency_gate exRunState exProof
      { snx := dec 1000, global_debt_share := dec 100 }).2
      (dec 50) "A" (SyntheticToken.new "A" 10 11) (dec 600) (dec 2)
      16666666666666666666 (dec 1) (dec 700) (by decide) (by decide)
      (by decide) (by decide) (by decide) (by decide) (by decide) (by decide)
      (by decide) (by decide) (by decide) (by decide) (by decide)

/-! ### Claim C5: burn semantics -/

/-- C5: a burn of synthetic tokens whose computed value is
`debt_to_remove = price × amount` against global debt `gd ≠ 0` burns
exactly `supply × debt_to_remove / gd` shares (truncating operand order
exactly as in the source); on success both the total share supply and the
account's share balance drop by that amount, and when the account holds
fewer shares than that the burn fails with the insufficient-funds panic
(`InsufficientShareBalance` semantics of the vault the shares are drawn
from). -/
theorem claim_C5_burn (s : SyntheticPool) (pf : CallerProof)
    (bucket : Bucket) (usr : User) (synth : SyntheticToken) (gd p : Int)
    (hl : lookupKV s.users pf.resource_address = some usr)
    (hsy : findSynth s.synthetics bucket.resource_address = some synth)
    (hgd : get_total_global_debt s = .ok gd) (hgd0 : gd ≠ 0)
    (hp : get_asset_price s synth.asset_address = .ok p)
    (hshnn : 0 ≤ dDiv (dMul s.debt_share_supply (dMul p bucket.amount)) gd) :
    (usr.global_debt_share
        < dDiv (dMul s.debt_share_supply (dMul p bucket.amount)) gd →
      burn s pf bucket = .error .insufficientFunds) ∧
    (dDiv (dMul s.debt_share_supply (dMul p bucket.amount)) gd
        ≤ usr.global_debt_share →
      burn s pf bucket = .ok ((), burnState s pf.resource_address
        bucket.resource_address bucket.amount
        (dDiv (dMul s.debt_share_supply (dMul p bucket.amount)) gd)) ∧
      (burnState s pf.resource_address bucket.resource_address bucket.amount
          (dDiv (dMul s.debt_share_supply (dMul p bucket.amount)) gd)
        ).debt_share_supply
        = s.debt_share_supply
          - dDiv (dMul s.debt_share_supply (dMul p bucket.amount)) gd ∧
      lookupKV (burnState s pf.resource_address bucket.resource_address
          bucket.amount
          (dDiv (dMul s.debt_share_supply (dMul p bucket.amount)) gd)).users
          pf.resource_address
        = some { usr with global_debt_share := (usr.global_debt_share -
            dDiv (dMul s.debt_share_supply (dMul p bucket.amount)) gd) }) := by
  constructor
  · intro hlt
    rw [burn_eq hl hsy hgd hgd0 hp rfl hshnn, if_pos hlt]
  · intro hle
    refine ⟨?_, rfl, ?_⟩
    · rw [burn_eq hl hsy hgd hgd0 hp rfl hshnn, if_neg (not_lt.mpr hle)]
    · simp only [burnState]
      rw [lookupKV_update_self, hl]
      rfl

/-- Witness for C5 at `exRunState`: burning 100 synthetic "A" (value 200 of
the 600 global debt) burns 100×200/600 = 33.33… shares, decrementing both
balances; burning 400 would require more shares than the account holds and
fails with the insufficient-funds panic. -/
theorem claim_C5_witness :
    burn exRunState exProof ⟨11, dec 100⟩
      = .ok ((), burnState exRunState 1 11 (dec 100) 33333333333333333333) ∧
    burn exRunState exProof ⟨11, dec 400⟩ = .error .insufficientFunds := by
  constructor
  · exact (((claim_C5_burn exRunState exProof ⟨11, dec 100⟩
      { snx := dec 1000, global_debt_share := dec 100 }
      (SyntheticToken.new "A" 10 11) (dec 600) (dec 2) (by decide)
      (by decide) (by decide) (by decide) (by decide) (by decide)).2
      (by decide)).1)
  · exact ((claim_C5_burn exRunState exProof ⟨11, dec 400⟩
      { snx := dec 1000, global_debt_share := dec 100 }
      (SyntheticToken.new "A" 10 11) (dec 600) (dec 2) (by decide)
      (by decide) (by decide) (by decide) (by decide) (by decide)).1
      (by decide))

/-- Extraction: a successful `mint` committed exactly `mintState` with the
shares computed by `compute_mint_shares`, and its amounts were
nonnegative. -/
theorem mint_ok_state {s : SyntheticPool} {pf : CallerProof} {amount : Int}
    {symbol : String} {usr : User} {synth : SyntheticToken} {gd p sh : Int}
    {bkt : Bucket} {s' : SyntheticPool}
    (hl : lookupKV s.users pf.resource_address = some usr)
    (hsym : lookupKV s.synthetics symbol = some synth)
    (hgd : get_total_global_debt s = .ok gd)
    (hp : get_asset_price s synth.asset_address = .ok p)
    (hsh : compute_mint_shares gd s.debt_share_supply (dMul p amount)
      = .ok sh)
    (hm : mint s pf amount symbol = .ok (bkt, s')) :
    s' = mintState s pf.resource_address synth.token_resource_address
      amount sh ∧
    bkt = ⟨synth.token_resource_address, amount⟩ ∧ 0 ≤ sh ∧ 0 ≤ amount := by
  simp only [mint, get_user_id, get_user, hl, bind, Except.bind, hsym, hgd,
    hp, hsh, get_snx_price_mintState, mintState_supply,
    mintState_threshold] at hm
  by_cases h1 : sh < 0
  · simp [h1] at hm
  · simp only [h1, if_false] at hm
    by_cases h2 : amount < 0
    · simp [h2] at hm
    · simp only [h2, if_false] at hm
      cases hpsnx : get_snx_price s with
      | error e => simp only [hpsnx] at hm; cases hm
      | ok psnx =>
        cases hd₁ : get_total_global_debt (mintState s pf.resource_address
            synth.token_resource_address amount sh) with
        | error e => simp only [hpsnx, hd₁] at hm; cases hm
        | ok d₁ =>
          cases hchk : check_collateralization usr.snx
              (usr.global_debt_share + sh) psnx d₁
              (s.debt_share_supply + sh) s.collateralization_threshold with
          | error e => simp only [hpsnx, hd₁, hchk] at hm; cases hm
          | ok v =>
            simp only [hpsnx, hd₁, hchk, Except.ok.injEq,
              Prod.mk.injEq] at hm
            exact ⟨hm.2.symm, hm.1.symm, not_lt.mp h1, not_lt.mp h2⟩

/-! ### Claim C4 (amended): the bootstrap branch -/

/-- C4 (amended): a completed mint credits the fixed bootstrap amount of
100 shares exactly when the recomputed global debt value is zero — not
when the share supply is zero — regardless of the minted amount;
otherwise the proportional shares `new_debt / (global_debt / supply)`
are credited. -/
theorem claim_C4_bootstrap (s : SyntheticPool) (pf : CallerProof)
    (amount : Int) (symbol : String) (usr : User) (synth : SyntheticToken)
    (gd : Int) (bkt : Bucket) (s' : SyntheticPool)
    (hl : lookupKV s.users pf.resource_address = some usr)
    (hsym : lookupKV s.synthetics symbol = some synth)
    (hgd : get_total_global_debt s = .ok gd)
    (hm : mint s pf amount symbol = .ok (bkt, s')) :
    (gd = 0 → s'.debt_share_supply = s.debt_share_supply + dec 100) ∧
    (gd ≠ 0 → ∀ p, get_asset_price s synth.asset_address = .ok p →
      s'.debt_share_supply = s.debt_share_supply +
        dDiv (dMul p amount) (dDiv gd s.debt_share_supply)) := by
  constructor
  · intro hgd0
    subst hgd0
    cases hp : get_asset_price s synth.asset_address with
    | error e =>
      simp [mint, get_user_id, get_user, hl, bind, Except.bind, hsym, hgd,
        hp] at hm
    | ok p =>
      have hsh : compute_mint_shares 0 s.debt_share_supply (dMul p amount)
          = .ok (dec 100) := by simp [compute_mint_shares]
      rw [(mint_ok_state hl hsym hgd hp hsh hm).1, mintState_supply]
  · intro hgd0 p hp
    by_cases hS : s.debt_share_supply = 0
    · exfalso
      simp [mint, get_user_id, get_user, hl, bind, Except.bind, hsym, hgd,
        hp, compute_mint_shares, hgd0, dDivE, hS] at hm
    · by_cases hf : dDiv gd s.debt_share_supply = 0
      · exfalso
        simp [mint, get_user_id, get_user, hl, bind, Except.bind, hsym, hgd,
          hp, compute_mint_shares, hgd0, dDivE, hS, hf] at hm
      · have hsh : compute_mint_shares gd s.debt_share_supply (dMul p amount)
            = .ok (dDiv (dMul p amount) (dDiv gd s.debt_share_supply)) := by
          simp [compute_mint_shares, hgd0, dDivE, hS, hf, bind, Except.bind]
        rw [(mint_ok_state hl hsym hgd hp hsh hm).1, mintState_supply]

/-- Witness for the amended C4: on the fresh pool `exBootState` (zero
global debt) a mint of 100 synthetic "A" credits exactly the fixed 100
debt shares. -/
theorem claim_C4_witness :
    get_total_global_debt exBootState = .ok 0 ∧
    mint exBootState exProof (dec 100) "A"
      = .ok (⟨11, dec 100⟩, mintState exBootState 1 11 (dec 100) (dec 100)) ∧
    (mintState exBootState 1 11 (dec 100) (dec 100)).debt_share_supply
      = exBootState.debt_share_supply + dec 100 := by
  refine ⟨by decide, by decide, ?_⟩
  exact (claim_C4_bootstrap exBootState exProof (dec 100) "A"
    { snx := dec 1000, global_debt_share := 0 }
    (SyntheticToken.new "A" 10 11) 0 ⟨11, dec 100⟩
    (mintState exBootState 1 11 (dec 100) (dec 100))
    (by decide) (by decide) (by decide) (by decide)).1 rfl

/-! ### Claim C2 (amended): proportional minting -/

/-- C2 (amended): a mint of value `V = price × amount` against nonzero
global debt `D` and positive share supply `S` credits
`V / (D / S)` shares — truncating at each of the two divisions in the
source's operand order, which can exceed the burn-style `V × S / D`.
Consequently a mint of value 0 still mints 0 shares, and a second mint of
the same amount immediately after the first credits no more shares than
the first: the recomputed debt grows by at least `V`, so the truncated
share price `D / S` cannot drop. -/
theorem claim_C2_mint_proportionality (s : SyntheticPool)
    (pf : CallerProof) (amount : Int) (symbol : String) (usr : User)
    (synth : SyntheticToken) (gd p : Int) (b₁ b₂ : Bucket)
    (s₁ s₂ : SyntheticPool)
    (hl : lookupKV s.users pf.resource_address = some usr)
    (hsym : lookupKV s.synthetics symbol = some synth)
    (hgd : get_total_global_debt s = .ok gd)
    (hp : get_asset_price s synth.asset_address = .ok p)
    (hgd0 : gd ≠ 0) (hS : 0 < s.debt_share_supply)
    (hpnn : 0 ≤ p) (hamt : 0 ≤ amount)
    (hNP : NonnegPrices s) (hNS : NonnegSupplies s)
    (hnd : (s.synthetics.map (fun e => e.2.token_resource_address)).Nodup)
    (hm₁ : mint s pf amount symbol = .ok (b₁, s₁))
    (hm₂ : mint s₁ pf amount symbol = .ok (b₂, s₂)) :
    s₁.debt_share_supply = s.debt_share_supply +
      dDiv (dMul p amount) (dDiv gd s.debt_share_supply) ∧
    (dMul p amount = 0 → s₁.debt_share_supply = s.debt_share_supply) ∧
    s₂.debt_share_supply - s₁.debt_share_supply
      ≤ s₁.debt_share_supply - s.debt_share_supply := by
  have hgdnn : 0 ≤ gd := total_debt_nonneg hNP hNS hgd
  have hgdpos : 0 < gd := lt_of_le_of_ne hgdnn (Ne.symm hgd0)
  have hfnn : 0 ≤ dDiv gd s.debt_share_supply :=
    dDiv_nonneg hgdnn (le_of_lt hS)
  have hf0 : dDiv gd s.debt_share_supply ≠ 0 := by
    intro h0
    simp [mint, get_user_id, get_user, hl, bind, Except.bind, hsym, hgd, hp,
      compute_mint_shares, hgd0, dDivE, ne_of_gt hS, h0] at hm₁
  have hfpos : 0 < dDiv gd s.debt_share_supply :=
    lt_of_le_of_ne hfnn (Ne.symm hf0)
  have hvnn : 0 ≤ dMul p amount := dMul_nonneg hpnn hamt
  have hshnn : 0 ≤ dDiv (dMul p amount) (dDiv gd s.debt_share_supply) :=
    dDiv_nonneg hvnn hfnn
  have hsh : compute_mint_shares gd s.debt_share_supply (dMul p amount)
      = .ok (dDiv (dMul p amount) (dDiv gd s.debt_share_supply)) := by
    simp [compute_mint_shares, hgd0, dDivE, ne_of_gt hS, hf0, bind,
      Except.bind]
  obtain ⟨hs₁, hb₁, -, -⟩ := mint_ok_state hl hsym hgd hp hsh hm₁
  have hl₁ : lookupKV s₁.users pf.resource_address
      = some { usr with global_debt_share := (usr.global_debt_share +
          dDiv (dMul p amount) (dDiv gd s.debt_share_supply)) } := by
    rw [hs₁]
    simp only [mintState]
    rw [lookupKV_update_self, hl]
    rfl
  have hsym₁ : lookupKV s₁.synthetics symbol = some synth := by
    rw [hs₁]
    exact hsym
  have hmem := lookupKV_mem hsym
  have horc : oracle_price s.oracle synth.asset_address
      s.usd_resource_address = some p := get_asset_price_ok.mp hp
  have ht₀nn : 0 ≤ lookupTS s.token_supply synth.token_resource_address :=
    lookupTS_nonneg hNS _
  have hgd₁ : get_total_global_debt s₁ = .ok (gd
      - dMul p (lookupTS s.token_supply synth.token_resource_address)
      + dMul p (lookupTS s.token_supply synth.token_resource_address
        + amount)) := by
    show total_debt s₁ s₁.synthetics = _
    rw [hs₁]
    refine total_debt_setTS ?_ ?_ ?_ hnd hmem rfl hgd horc <;> rfl
  have hsuper : dMul p (lookupTS s.token_supply synth.token_resource_address)
      + dMul p amount
      ≤ dMul p (lookupTS s.token_supply synth.token_resource_address
        + amount) := dMul_superadd hpnn ht₀nn hamt
  have hgd₁ge : gd + dMul p amount ≤ gd
      - dMul p (lookupTS s.token_supply synth.token_resource_address)
      + dMul p (lookupTS s.token_supply synth.token_resource_address
        + amount) := by linarith
  have hgd₁pos : (0 : Int) < gd
      - dMul p (lookupTS s.token_supply synth.token_resource_address)
      + dMul p (lookupTS s.token_supply synth.token_resource_address
        + amount) := by linarith
  have hp₁ : get_asset_price s₁ synth.asset_address = .ok p := by
    rw [hs₁, get_asset_price_mintState]
    exact hp
  have hS₁ : 0 < s₁.debt_share_supply := by
    rw [hs₁, mintState_supply]
    exact add_pos_of_pos_of_nonneg hS hshnn
  have hf₂ge : dDiv gd s.debt_share_supply
      ≤ dDiv (gd
        - dMul p (lookupTS s.token_supply synth.token_resource_address)
        + dMul p (lookupTS s.token_supply synth.token_resource_address
          + amount)) s₁.debt_share_supply := by
    rw [hs₁, mintState_supply]
    exact mint_share_price_mono hS hgdnn hvnn rfl hfpos rfl hgd₁ge
  have hf₂pos : 0 < dDiv (gd
      - dMul p (lookupTS s.token_supply synth.token_resource_address)
      + dMul p (lookupTS s.token_supply synth.token_resource_address
        + amount)) s₁.debt_share_supply := lt_of_lt_of_le hfpos hf₂ge
  have hsh₂ : compute_mint_shares (gd
      - dMul p (lookupTS s.token_supply synth.token_resource_address)
      + dMul p (lookupTS s.token_supply synth.token_resource_address
        + amount)) s₁.debt_share_supply (dMul p amount)
      = .ok (dDiv (dMul p amount) (dDiv (gd
        - dMul p (lookupTS s.token_supply synth.token_resource_address)
        + dMul p (lookupTS s.token_supply synth.token_resource_address
          + amount)) s₁.debt_share_supply)) := by
    simp [compute_mint_shares, ne_of_gt hgd₁pos, dDivE, ne_of_gt hS₁,
      ne_of_gt hf₂pos, bind, Except.bind]
  obtain ⟨hs₂, hb₂, -, -⟩ := mint_ok_state hl₁ hsym₁ hgd₁ hp₁ hsh₂ hm₂
  have hsh₂le : dDiv (dMul p amount) (dDiv (gd
      - dMul p (lookupTS s.token_supply synth.token_resource_address)
      + dMul p (lookupTS s.token_supply synth.token_resource_address
        + amount)) s₁.debt_share_supply)
      ≤ dDiv (dMul p amount) (dDiv gd s.debt_share_supply) :=
    dDiv_antitone hvnn hfpos hf₂ge
  refine ⟨by rw [hs₁, mintState_supply], ?_, ?_⟩
  · intro hv0
    rw [hs₁, mintState_supply, hv0]
    simp [dDiv, Int.zero_tdiv]
  · have hsupply₁ : s₁.debt_share_supply = s.debt_share_supply
        + dDiv (dMul p amount) (dDiv gd s.debt_share_supply) := by
      rw [hs₁, mintState_supply]
    have hsupply₂ : s₂.debt_share_supply = s₁.debt_share_supply
        + dDiv (dMul p amount) (dDiv (gd
          - dMul p (lookupTS s.token_supply synth.token_resource_address)
          + dMul p (lookupTS s.token_supply synth.token_resource_address
            + amount)) s₁.debt_share_supply) := by
      rw [hs₂, mintState_supply]
    linarith [hsupply₁, hsupply₂, hsh₂le]

/-- Witness for the amended C2 at `cx2State`: a mint of value 1 against
debt 1 and supply 3 credits 3.000000000000000003 shares, and an identical
second mint credits no more. -/
theorem claim_C2_witness :
    mint cx2State exProof (dec 1) "A" = .ok (⟨11, dec 1⟩,
      mintState cx2State 1 11 (dec 1) 3000000000000000003) ∧
    mint (mintState cx2State 1 11 (dec 1) 3000000000000000003) exProof
        (dec 1) "A"
      = .ok (⟨11, dec 1⟩, mintState (mintState cx2State 1 11 (dec 1)
          3000000000000000003) 1 11 (dec 1) 3000000000000000003) ∧
    (mintState (mintState cx2State 1 11 (dec 1) 3000000000000000003) 1 11
        (dec 1) 3000000000000000003).debt_share_supply
        - (mintState cx2State 1 11 (dec 1)
          3000000000000000003).debt_share_supply
      ≤ (mintState cx2State 1 11 (dec 1)
          3000000000000000003).debt_share_supply
        - cx2State.debt_share_supply := by
  refine ⟨by decide, by decide, ?_⟩
  exact (claim_C2_mint_proportionality cx2State exProof (dec 1) "A"
    { snx := dec 1000000, global_debt_share := dec 3 }
    (SyntheticToken.new "A" 10 11) (dec 1) (dec 1) ⟨11, dec 1⟩ ⟨11, dec 1⟩
    (mintState cx2State 1 11 (dec 1) 3000000000000000003)
    (mintState (mintState cx2State 1 11 (dec 1) 3000000000000000003) 1 11
      (dec 1) 3000000000000000003)
    (by decide) (by decide) (by decide) (by decide) (by decide) (by decide)
    (by decide) (by decide) (by unfold NonnegPrices; decide)
    (by unfold NonnegSupplies; decide) (by decide) (by decide)
    (by decide)).2.2

/-! ### Claim C6: burning cannot worsen the collateralization level -/

theorem findSynth_mem {l : List (String × SyntheticToken)} {tok : Nat}
    {sy : SyntheticToken} (h : findSynth l tok = some sy) :
    sy.token_resource_address = tok ∧ ∃ sym, (sym, sy) ∈ l := by
  induction l with
  | nil => cases h
  | cons e rest ih =>
    by_cases he : e.2.token_resource_address = tok
    · simp only [findSynth, if_pos he, Option.some.injEq] at h
      subst h
      refine ⟨he, e.1, ?_⟩
      rw [show (e.1, e.2) = e from rfl]
      exact List.mem_cons_self _ _
    · simp only [findSynth, if_neg he] at h
      obtain ⟨h1, sym, h2⟩ := ih h
      exact ⟨h1, sym, List.mem_cons_of_mem _ h2⟩

/-- Extraction: a successful `burn` committed exactly `burnState` with the
proportional share amount, which was nonnegative and covered by the
account's balance. -/
theorem burn_ok_state {s : SyntheticPool} {pf : CallerProof}
    {bucket : Bucket} {usr : User} {synth : SyntheticToken} {gd p : Int}
    {s' : SyntheticPool}
    (hl : lookupKV s.users pf.resource_address = some usr)
    (hsy : findSynth s.synthetics bucket.resource_address = some synth)
    (hgd : get_total_global_debt s = .ok gd) (hgd0 : gd ≠ 0)
    (hp : get_asset_price s synth.asset_address = .ok p)
    (hb : burn s pf bucket = .ok ((), s')) :
    s' = burnState s pf.resource_address bucket.resource_address
      bucket.amount
      (dDiv (dMul s.debt_share_supply (dMul p bucket.amount)) gd) ∧
    0 ≤ dDiv (dMul s.debt_share_supply (dMul p bucket.amount)) gd ∧
    dDiv (dMul s.debt_share_supply (dMul p bucket.amount)) gd
      ≤ usr.global_debt_share := by
  simp only [burn, get_user_id, get_user, hl, bind, Except.bind, hsy, hgd,
    hp, dDivE, hgd0, if_false] at hb
  by_cases h1 : dDiv (dMul s.debt_share_supply (dMul p bucket.amount)) gd < 0
  · simp [h1] at hb
  · simp only [h1, if_false] at hb
    by_cases h2 : usr.global_debt_share
        < dDiv (dMul s.debt_share_supply (dMul p bucket.amount)) gd
    · simp [h2] at hb
    · simp only [h2, if_false, Except.ok.injEq, Prod.mk.injEq] at hb
      exact ⟨hb.2.symm, not_lt.mp h1, not_lt.mp h2⟩

/-- C6: for every account and every successful burn, the account's
collateralization level as the code computes it —
`(collateral × snx_price) / ((global_debt / supply) × shares)` with
truncating arithmetic — evaluated on the post-burn state with the same
prices is at least its pre-burn value, so burn needs (and performs) no
post-operation solvency check.  Hypotheses: prices and supplies are
nonnegative, the token resources of the registered synthetics are
distinct, the burned bucket is covered by its token's circulating supply,
the account's shares do not exceed the total supply, and both levels'
denominators are nonzero. -/
theorem claim_C6_burn_improves_level (s : SyntheticPool) (pf : CallerProof)
    (bucket : Bucket) (usr : User) (synth : SyntheticToken)
    (gd p psnx : Int) (s' : SyntheticPool)
    (hl : lookupKV s.users pf.resource_address = some usr)
    (hsy : findSynth s.synthetics bucket.resource_address = some synth)
    (hgd : get_total_global_debt s = .ok gd) (hgd0 : gd ≠ 0)
    (hp : get_asset_price s synth.asset_address = .ok p)
    (hS : 0 < s.debt_share_supply)
    (hpnn : 0 ≤ p) (hbnn : 0 ≤ bucket.amount)
    (hble : bucket.amount ≤ lookupTS s.token_supply bucket.resource_address)
    (hNP : NonnegPrices s) (hNS : NonnegSupplies s)
    (hnd : (s.synthetics.map (fun e => e.2.token_resource_address)).Nodup)
    (hpsnxnn : 0 ≤ psnx) (husnx : 0 ≤ usr.snx)
    (husrS : usr.global_debt_share ≤ s.debt_share_supply)
    (hburn : burn s pf bucket = .ok ((), s')) :
    ∀ (usr' : User) (d' : Int),
      lookupKV s'.users pf.resource_address = some usr' →
      get_total_global_debt s' = .ok d' →
      s'.debt_share_supply ≠ 0 →
      dMul (dDiv gd s.debt_share_supply) usr.global_debt_share ≠ 0 →
      dMul (dDiv d' s'.debt_share_supply) usr'.global_debt_share ≠ 0 →
      dDiv (dMul usr.snx psnx)
          (dMul (dDiv gd s.debt_share_supply) usr.global_debt_share)
        ≤ dDiv (dMul usr'.snx psnx)
          (dMul (dDiv d' s'.debt_share_supply) usr'.global_debt_share) := by
  intro usr' d' hl' hd' hS'0 hdb hda
  obtain ⟨hs', hshnn, hshle⟩ := burn_ok_state hl hsy hgd hgd0 hp hburn
  obtain ⟨htok, sym, hmem⟩ := findSynth_mem hsy
  have horc : oracle_price s.oracle synth.asset_address
      s.usd_resource_address = some p := get_asset_price_ok.mp hp
  have hgdnn : 0 ≤ gd := total_debt_nonneg hNP hNS hgd
  have hgdpos : 0 < gd := lt_of_le_of_ne hgdnn (Ne.symm hgd0)
  have hvnn : 0 ≤ dMul p bucket.amount := dMul_nonneg hpnn hbnn
  have ht₀nn : 0 ≤ lookupTS s.token_supply bucket.resource_address :=
    lookupTS_nonneg hNS _
  -- the committed state and its projections
  have husr' : usr' = { usr with global_debt_share := (usr.global_debt_share
      - dDiv (dMul s.debt_share_supply (dMul p bucket.amount)) gd) } := by
    rw [hs'] at hl'
    simp only [burnState] at hl'
    rw [lookupKV_update_self, hl] at hl'
    cases hl'
    rfl
  have hsupply' : s'.debt_share_supply = s.debt_share_supply
      - dDiv (dMul s.debt_share_supply (dMul p bucket.amount)) gd := by
    rw [hs', burnState_supply]
  -- the recomputed global debt after the burn
  have hd'val : get_total_global_debt s' = .ok (gd
      - dMul p (lookupTS s.token_supply bucket.resource_address)
      + dMul p (lookupTS s.token_supply bucket.resource_address
        - bucket.amount)) := by
    show total_debt s' s'.synthetics = _
    rw [hs']
    refine total_debt_setTS ?_ ?_ ?_ hnd hmem htok hgd horc <;> rfl
  have hd'eq : d' = gd
      - dMul p (lookupTS s.token_supply bucket.resource_address)
      + dMul p (lookupTS s.token_supply bucket.resource_address
        - bucket.amount) := by
    rw [hd'] at hd'val
    exact (Except.ok.injEq _ _).mp hd'val
  have hsuper : dMul p (lookupTS s.token_supply bucket.resource_address
        - bucket.amount) + dMul p bucket.amount
      ≤ dMul p (lookupTS s.token_supply bucket.resource_address) := by
    have := dMul_superadd hpnn (by linarith : (0:Int) ≤ lookupTS
      s.token_supply bucket.resource_address - bucket.amount) hbnn
    calc dMul p (lookupTS s.token_supply bucket.resource_address
          - bucket.amount) + dMul p bucket.amount
        ≤ dMul p (lookupTS s.token_supply bucket.resource_address
          - bucket.amount + bucket.amount) := this
      _ = dMul p (lookupTS s.token_supply bucket.resource_address) := by
          ring_nf
  have hd'le : d' ≤ gd - dMul p bucket.amount := by
    rw [hd'eq]
    linarith
  -- nonnegativity of the recomputed debt
  have hNP' : NonnegPrices s' := by
    rw [hs']
    exact hNP
  have hNS' : NonnegSupplies s' := by
    rw [hs']
    intro e he
    simp only [burnState, setTS] at he
    rcases List.mem_cons.mp he with h | h
    · rw [h]
      simpa using by linarith
    · exact hNS e h
  have hd'nn : 0 ≤ d' := total_debt_nonneg hNP' hNS' hd'
  -- supply after is positive
  have hS'nn : 0 ≤ s'.debt_share_supply := by
    rw [hsupply']
    linarith
  have hS'pos : 0 < s'.debt_share_supply :=
    lt_of_le_of_ne hS'nn (Ne.symm hS'0)
  -- exact share-price comparison, cross-multiplied
  have hshD : dDiv (dMul s.debt_share_supply (dMul p bucket.amount)) gd * gd
      ≤ s.debt_share_supply * dMul p bucket.amount :=
    burn_shares_bound (le_of_lt hS) hvnn hgdpos rfl
  have hcross : d' * s.debt_share_supply ≤ gd * s'.debt_share_supply := by
    rw [hsupply']
    nlinarith
  have hfle : dDiv d' s'.debt_share_supply ≤ dDiv gd s.debt_share_supply :=
    dDiv_le_of_cross hS hS'pos hd'nn hcross
  have hf'nn : 0 ≤ dDiv d' s'.debt_share_supply :=
    dDiv_nonneg hd'nn (le_of_lt hS'pos)
  have hgds'nn : 0 ≤ usr'.global_debt_share := by
    rw [husr']
    simp only []
    linarith [hshle, hshnn]
  have hgds'le : usr'.global_debt_share ≤ usr.global_debt_share := by
    rw [husr']
    simp only []
    linarith [hshnn]
  have hdenle : dMul (dDiv d' s'.debt_share_supply) usr'.global_debt_share
      ≤ dMul (dDiv gd s.debt_share_supply) usr.global_debt_share :=
    dMul_mono hf'nn hfle hgds'nn hgds'le
  have hdennn : 0 ≤ dMul (dDiv d' s'.debt_share_supply)
      usr'.global_debt_share := dMul_nonneg hf'nn hgds'nn
  have hdenpos : 0 < dMul (dDiv d' s'.debt_share_supply)
      usr'.global_debt_share := lt_of_le_of_ne hdennn (Ne.symm hda)
  have hsnx' : usr'.snx = usr.snx := by
    rw [husr']
  rw [hsnx']
  exact dDiv_antitone (dMul_nonneg husnx hpsnxnn) hdenpos hdenle

/-- Witness for C6 at `exRunState`: burning 100 synthetic "A" moves the
level from 1000/600 to 1000/400-ish; the post-burn truncated level is no
smaller. -/
theorem claim_C6_witness :
    burn exRunState exProof ⟨11, dec 100⟩
      = .ok ((), burnState exRunState 1 11 (dec 100) 33333333333333333333) ∧
    dDiv (dMul (dec 1000) (dec 1))
        (dMul (dDiv (dec 600) (dec 100)) (dec 100))
      ≤ dDiv (dMul (dec 1000) (dec 1))
        (dMul (dDiv (dec 400) (dec 100 - 33333333333333333333))
          (dec 100 - 33333333333333333333)) := by
  refine ⟨by decide, ?_⟩
  exact claim_C6_burn_improves_level exRunState exProof ⟨11, dec 100⟩
    { snx := dec 1000, global_debt_share := dec 100 }
    (SyntheticToken.new "A" 10 11) (dec 600) (dec 2) (dec 1)
    (burnState exRunState 1 11 (dec 100) 33333333333333333333)
    (by decide) (by decide) (by decide) (by decide) (by decide) (by decide)
    (by decide) (by decide) (by decide)
    (by unfold NonnegPrices; decide) (by unfold NonnegSupplies; decide)
    (by decide) (by decide) (by decide) (by decide) (by decide)
    { snx := dec 1000,
      global_debt_share := (dec 100 - 33333333333333333333) }
    (dec 400) (by decide) (by decide) (by decide) (by decide) (by decide)

/-! ### Claim C3: the share supply equals the sum of all balances -/

theorem usersInv_update_keep {s : SyntheticPool} (uid : Nat) (f : User → User)
    (hf : ∀ u, (f u).global_debt_share = u.global_debt_share)
    (h : UsersInv s) :
    UsersInv { s with users := updateKV s.users uid f } := by
  refine ⟨?_, ?_⟩
  · show ((updateKV s.users uid f).map Prod.fst).Nodup
    rw [updateKV_keys]
    exact h.1
  · show s.debt_share_supply = sumShares (updateKV s.users uid f)
    rw [sumShares_update_keep f hf]
    exact h.2

theorem stake_preserves {s : SyntheticPool} {pf : CallerProof} {b : Bucket}
    {r : Unit} {s' : SyntheticPool} (h : UsersInv s)
    (hst : stake s pf b = .ok (r, s')) : UsersInv s' := by
  simp only [stake, get_user_id, get_user, bind, Except.bind] at hst
  cases hl : lookupKV s.users pf.resource_address with
  | some u =>
    simp only [hl] at hst
    by_cases hbr : b.resource_address = s.snx_resource_address
    · simp only [hbr, if_pos, Except.ok.injEq, Prod.mk.injEq] at hst
      rw [← hst.2]
      exact usersInv_update_keep pf.resource_address
        (fun u => { u with snx := u.snx + b.amount }) (fun u => rfl) h
    · simp [hbr] at hst
  | none =>
    simp only [hl] at hst
    by_cases hbr : b.resource_address = s.snx_resource_address
    · simp only [hbr, if_pos, Except.ok.injEq, Prod.mk.injEq] at hst
      rw [← hst.2]
      have hmem := not_mem_of_lookupKV_eq_none hl
      have h1 : UsersInv { s with
          users := (pf.resource_address, User.new) :: s.users } := by
        refine ⟨?_, ?_⟩
        · show ((((pf.resource_address, User.new) :: s.users)).map
            Prod.fst).Nodup
          rw [List.map_cons, List.nodup_cons]
          exact ⟨hmem, h.1⟩
        · show s.debt_share_supply
            = sumShares ((pf.resource_address, User.new) :: s.users)
          rw [sumShares_cons]
          have : (User.new).global_debt_share = 0 := rfl
          rw [this, h.2]
          ring
      exact usersInv_update_keep pf.resource_address
        (fun u => { u with snx := u.snx + b.amount }) (fun u => rfl) h1
    · simp [hbr] at hst

theorem unstake_preserves {s : SyntheticPool} {pf : CallerProof}
    {amount : Int} {b : Bucket} {s' : SyntheticPool} (h : UsersInv s)
    (hst : unstake s pf amount = .ok (b, s')) : UsersInv s' := by
  simp only [unstake, get_user_id, get_user, bind, Except.bind] at hst
  cases hl : lookupKV s.users pf.resource_address with
  | none => simp only [hl] at hst; cases hst
  | some u =>
    simp only [hl] at hst
    by_cases h1 : amount < 0
    · simp [h1] at hst
    · simp only [h1, if_false] at hst
      by_cases h2 : u.snx < amount
      · simp [h2] at hst
      · simp only [h2, if_false] at hst
        cases hp : get_snx_price s with
        | error e => simp only [hp] at hst; cases hst
        | ok psnx =>
          cases hd : get_total_global_debt s with
          | error e => simp only [hp, hd] at hst; cases hst
          | ok d =>
            cases hchk : check_collateralization (u.snx - amount)
                u.global_debt_share psnx d s.debt_share_supply
                s.collateralization_threshold with
            | error e => simp only [hp, hd, hchk] at hst; cases hst
            | ok v =>
              simp only [hp, hd, hchk, Except.ok.injEq,
                Prod.mk.injEq] at hst
              rw [← hst.2]
              exact usersInv_update_keep pf.resource_address
                (fun u => { u with snx := u.snx - amount }) (fun u => rfl) h

theorem mint_preserves {s : SyntheticPool} {pf : CallerProof} {amount : Int}
    {symbol : String} {b : Bucket} {s' : SyntheticPool} (h : UsersInv s)
    (hst : mint s pf amount symbol = .ok (b, s')) : UsersInv s' := by
  cases hl : lookupKV s.users pf.resource_address with
  | none =>
    simp [mint, get_user_id, get_user, bind, Except.bind, hl] at hst
  | some u =>
    cases hsym : lookupKV s.synthetics symbol with
    | none =>
      simp [mint, get_user_id, get_user, bind, Except.bind, hl, hsym] at hst
    | some synth =>
      cases hgd : get_total_global_debt s with
      | error e =>
        simp [mint, get_user_id, get_user, bind, Except.bind, hl, hsym,
          hgd] at hst
      | ok gd =>
        cases hp : get_asset_price s synth.asset_address with
        | error e =>
          simp [mint, get_user_id, get_user, bind, Except.bind, hl, hsym,
            hgd, hp] at hst
        | ok p =>
          cases hsh : compute_mint_shares gd s.debt_share_supply
              (dMul p amount) with
          | error e =>
            simp [mint, get_user_id, get_user, bind, Except.bind, hl, hsym,
              hgd, hp, hsh] at hst
          | ok sh =>
            obtain ⟨hs', -, -, -⟩ := mint_ok_state hl hsym hgd hp hsh hst
            rw [hs']
            refine ⟨?_, ?_⟩
            · show (((updateKV s.users pf.resource_address
                (fun u => { u with global_debt_share :=
                  u.global_debt_share + sh }))).map Prod.fst).Nodup
              rw [updateKV_keys]
              exact h.1
            · show s.debt_share_supply + sh = sumShares (updateKV s.users
                pf.resource_address (fun u => { u with global_debt_share :=
                  u.global_debt_share + sh }))
              rw [sumShares_update _ h.1 hl, h.2]
              ring

theorem burn_preserves {s : SyntheticPool} {pf : CallerProof}
    {bucket : Bucket} {r : Unit} {s' : SyntheticPool} (h : UsersInv s)
    (hst : burn s pf bucket = .ok (r, s')) : UsersInv s' := by
  cases hl : lookupKV s.users pf.resource_address with
  | none =>
    simp [burn, get_user_id, get_user, bind, Except.bind, hl] at hst
  | some u =>
    cases hsy : findSynth s.synthetics bucket.resource_address with
    | none =>
      simp [burn, get_user_id, get_user, bind, Except.bind, hl, hsy] at hst
    | some synth =>
      cases hgd : get_total_global_debt s with
      | error e =>
        simp [burn, get_user_id, get_user, bind, Except.bind, hl, hsy,
          hgd] at hst
      | ok gd =>
        cases hp : get_asset_price s synth.asset_address with
        | error e =>
          simp [burn, get_user_id, get_user, bind, Except.bind, hl, hsy,
            hgd, hp] at hst
        | ok p =>
          by_cases hgd0 : gd = 0
          · simp [burn, get_user_id, get_user, bind, Except.bind, hl, hsy,
              hgd, hp, dDivE, hgd0] at hst
          · obtain ⟨hs', -, -⟩ := burn_ok_state hl hsy hgd hgd0 hp
              (by rw [hst])
            rw [hs']
            refine ⟨?_, ?_⟩
            · show (((updateKV s.users pf.resource_address
                (fun u => { u with global_debt_share :=
                  (u.global_debt_share - dDiv (dMul s.debt_share_supply
                    (dMul p bucket.amount)) gd) }))).map Prod.fst).Nodup
              rw [updateKV_keys]
              exact h.1
            · show s.debt_share_supply
                - dDiv (dMul s.debt_share_supply (dMul p bucket.amount)) gd
                = sumShares (updateKV s.users pf.resource_address
                  (fun u => { u with global_debt_share :=
                    (u.global_debt_share - dDiv (dMul s.debt_share_supply
                      (dMul p bucket.amount)) gd) }))
              rw [sumShares_update _ h.1 hl, h.2]
              ring

theorem step_preserves {s : SyntheticPool} (op : Op) (h : UsersInv s) :
    UsersInv (step s op) := by
  cases op with
  | stake pf b =>
    simp only [step]
    cases hst : stake s pf b with
    | error e => exact h
    | ok v => exact stake_preserves h (by rw [hst])
  | unstake pf a =>
    simp only [step]
    cases hst : unstake s pf a with
    | error e => exact h
    | ok v => exact unstake_preserves h (by rw [hst])
  | mint pf a sym =>
    simp only [step]
    cases hst : mint s pf a sym with
    | error e => exact h
    | ok v => exact mint_preserves h (by rw [hst])
  | burn pf b =>
    simp only [step]
    cases hst : burn s pf b with
    | error e => exact h
    | ok v => exact burn_preserves h (by rw [hst])
  | add_synthetic_token sym a =>
    simp only [step]
    cases hst : add_synthetic_token s sym a with
    | error e => exact h
    | ok v =>
      simp only [add_synthetic_token] at hst
      cases hsym : lookupKV s.synthetics sym with
      | some x => simp only [hsym] at hst; cases hst
      | none =>
        simp only [hsym, Except.ok.injEq] at hst
        rw [← hst]
        exact h
  | get_user_summary uid =>
    simp only [step]
    cases hst : get_user_summary s uid with
    | error e => exact h
    | ok v =>
      simp only [get_user_summary, get_user, bind, Except.bind] at hst
      cases hl : lookupKV s.users uid with
      | none => simp only [hl] at hst; cases hst
      | some u =>
        cases hp : get_snx_price s with
        | error e => simp only [hl, hp] at hst; cases hst
        | ok psnx =>
          cases hd : get_total_global_debt s with
          | error e => simp only [hl, hp, hd] at hst; cases hst
          | ok d =>
            simp only [hl, hp, hd, Except.ok.injEq] at hst
            rw [← hst]
            exact h
  | new_user =>
    simp only [step, new_user]
    exact h
  | update_price base quote price =>
    simp only [step]
    exact h

theorem run_preserves {s : SyntheticPool} (ops : List Op) (h : UsersInv s) :
    UsersInv (run s ops) := by
  induction ops generalizing s with
  | nil => exact h
  | cons op rest ih => exact ih (step_preserves op h)

/-- C3: from a freshly instantiated pool, after every sequence of public
operations (stake, unstake, mint, burn, registration, reporting, even
interleaved external price updates) — each applied atomically, a panicking
operation leaving the state unchanged — the total debt-share supply equals
the sum of all user accounts' debt-share balances. -/
theorem claim_C3_supply_invariant (oracle : List ((Nat × Nat) × Int))
    (snx usd : Nat) (threshold : Int) (first_free : Nat) (ops : List Op) :
    (run (instantiate_pool oracle snx usd threshold first_free)
      ops).debt_share_supply
      = sumShares (run (instantiate_pool oracle snx usd threshold
        first_free) ops).users :=
  (run_preserves ops (by refine ⟨?_, ?_⟩ <;>
    simp [instantiate_pool, sumShares])).2
